import Mathlib

/-!
Verification of the `marketplace-sku` codec (`src/lib.rs`).

The development shallowly embeds the Rust source: strings become `List Char`
(Rust `char` sequences; byte-level facts are recovered through an explicit
UTF-8 length function), `u32`/`i32` become `Nat`/`Int` with explicit range
checks mirroring `checked_mul`/`checked_add`, and fallible code returns
`Except`.  The external `tf2_enum` crate is out of scope of the source tree
and is modelled from the spec as opaque finite code sets.
-/

set_option maxRecDepth 4000

/-- Convert a string literal to the character list it denotes. -/
def chars (s : String) : List Char := s.data

/-- Decimal digit character for a single digit, mirroring Rust's decimal
rendering of one digit. -/
def digitChar : Nat → Char
  | 0 => '0'
  | 1 => '1'
  | 2 => '2'
  | 3 => '3'
  | 4 => '4'
  | 5 => '5'
  | 6 => '6'
  | 7 => '7'
  | 8 => '8'
  | _ => '9'

/-- Numeric value of an ASCII digit character. -/
def digitVal (c : Char) : Nat := c.toNat - 48

/-- Fuel-driven accumulator loop producing the decimal digits of `n` in order,
mirroring the decimal rendering used by Rust's `Display` for unsigned
integers.  The fuel argument only serves structural termination; `natChars`
supplies enough fuel for the loop never to run out. -/
def natCharsAux : Nat → Nat → List Char → List Char
  | 0, _, acc => acc
  | fuel + 1, n, acc =>
    if n < 10 then digitChar n :: acc
    else natCharsAux fuel (n / 10) (digitChar (n % 10) :: acc)

/-- Decimal rendering of a natural number, as Rust's `u32::to_string`. -/
def natChars (n : Nat) : List Char := natCharsAux (n + 1) n []

/-- Decimal rendering of an integer, as Rust's `i32` `Display`: a minus sign
followed by the magnitude for negative values, plain digits otherwise. -/
def intChars (i : Int) : List Char :=
  if i < 0 then '-' :: natChars i.natAbs else natChars i.toNat

/-- Failure kinds of Rust's integer `FromStr`, restricted to the kinds the
codec can produce (`std::num::IntErrorKind`). -/
inductive IntErrorKind where
  | empty
  | invalidDigit
  | posOverflow
  | negOverflow
deriving DecidableEq, Repr

/-- Digit-accumulation loop of Rust's `from_str_radix` at radix 10: consume
characters left to right, failing with `invalidDigit` at the first non-digit
and with the overflow kind `ov` as soon as the accumulator would reach
`bound` (the first out-of-range magnitude). -/
def digitsLoop (ov : IntErrorKind) (bound : Nat) : Nat → List Char → Except IntErrorKind Nat
  | acc, [] => .ok acc
  | acc, c :: cs =>
    if c.isDigit then
      if bound ≤ acc * 10 + digitVal c then .error ov
      else digitsLoop ov bound (acc * 10 + digitVal c) cs
    else .error .invalidDigit

/-- Rust's `str::parse::<u32>`: optional leading plus sign, then at least one
decimal digit, value below `2^32`. -/
def parseU32Raw (s : List Char) : Except IntErrorKind Nat :=
  match s with
  | [] => .error .empty
  | c :: rest =>
    if c = '+' then
      if rest = [] then .error .invalidDigit
      else digitsLoop .posOverflow 4294967296 0 rest
    else digitsLoop .posOverflow 4294967296 0 (c :: rest)

/-- Rust's `str::parse::<i32>`: optional leading plus or minus sign, then at
least one decimal digit, value within `i32` range. -/
def parseI32Raw (s : List Char) : Except IntErrorKind Int :=
  match s with
  | [] => .error .empty
  | c :: rest =>
    if c = '+' then
      if rest = [] then .error .invalidDigit
      else
        match digitsLoop .posOverflow 2147483648 0 rest with
        | .ok n => .ok (Int.ofNat n)
        | .error k => .error k
    else if c = '-' then
      if rest = [] then .error .invalidDigit
      else
        match digitsLoop .negOverflow 2147483649 0 rest with
        | .ok n => .ok (-(n : Int))
        | .error k => .error k
    else
      match digitsLoop .posOverflow 2147483648 0 (c :: rest) with
      | .ok n => .ok (Int.ofNat n)
      | .error k => .error k

/-- Error taxonomy of strict decoding (`ParseError` in the source). -/
inductive ParseError where
  | parseInt (key : String) (error : IntErrorKind)
  | invalidFormat
  | invalidValue (key : String) (number : Nat)
deriving DecidableEq, Repr

instance {ε α : Type} [DecidableEq ε] [DecidableEq α] : DecidableEq (Except ε α) := fun x y =>
  match x, y with
  | .ok a, .ok b =>
    if h : a = b then .isTrue (congrArg Except.ok h)
    else .isFalse (fun hh => h (Except.ok.inj hh))
  | .error a, .error b =>
    if h : a = b then .isTrue (congrArg Except.error h)
    else .isFalse (fun hh => h (Except.error.inj hh))
  | .ok _, .error _ => .isFalse (fun hh => Except.noConfusion hh)
  | .error _, .ok _ => .isFalse (fun hh => Except.noConfusion hh)

/-- Modelled from the spec: the Numeric-Code Domain collaborator (the external
`tf2_enum` crate, absent from `src/`) is treated as an opaque finite set of
valid integer codes per attribute domain.  Quality codes (`Quality`); the
source pins `1`, `5`, `11` (Strange), `15` (Decorated Weapon) as valid and
`122` as invalid. -/
def qualityCodes : List Nat := [0, 1, 2, 3, 4, 5, 6, 7, 8, 9, 10, 11, 12, 13, 14, 15]

/-- Modelled from the spec: code of the sentinel quality `Quality::Rarity2`
used by lossy decoding, and code `0` of the default quality
`Quality::Normal`. -/
def qualityRarity2 : Nat := 2

/-- Modelled from the spec: default quality code (`Quality::Normal`). -/
def qualityNormal : Nat := 0

/-- Modelled from the spec: killstreak tier codes (`KillstreakTier`); the
source pins `3` (Professional) as valid and `0`, `5` as invalid. -/
def killstreakTierCodes : List Nat := [1, 2, 3]

/-- Modelled from the spec: wear codes (`Wear`); the source pins `2` and `3`
(Field-Tested) as valid. -/
def wearCodes : List Nat := [1, 2, 3, 4, 5]

/-- Modelled from the spec: sheen codes (`Sheen`); the source pins `1`
(Team Shine) as valid. -/
def sheenCodes : List Nat := [1, 2, 3, 4, 5, 6, 7]

/-- Modelled from the spec: killstreaker codes (`Killstreaker`); the source
pins `2008` (Hypno-Beam) as valid. -/
def killstreakerCodes : List Nat := [2002, 2003, 2004, 2005, 2006, 2007, 2008]

/-- Modelled from the spec: paint codes (`Paint`), an opaque finite code set;
no claim depends on its exact membership. -/
def paintCodes : List Nat :=
  [7511618, 4345659, 5322826, 14204632, 8208497, 13595446, 10843461, 5801378,
   12377523, 8154199, 15185211, 8289918, 15132390, 1315860, 16738740, 3100495,
   8421376, 3329330, 15787660, 15308410, 12073019, 4732984, 11049612, 3874595,
   6901050, 8400928, 12955537, 6637376, 2960676]

/-- Record of the codec (`struct SKU` in the source).  Numeric-code enum
fields hold the numeric code of the external enum value. -/
structure SKU where
  defindex : Int
  quality : Nat
  craftable : Bool
  australium : Bool
  strange : Bool
  festivized : Bool
  particle : Option Nat
  skin : Option Nat
  killstreak_tier : Option Nat
  wear : Option Nat
  target_defindex : Option Nat
  output_defindex : Option Nat
  output_quality : Option Nat
  craft_number : Option Nat
  crate_number : Option Nat
  paint : Option Nat
  sheen : Option Nat
  killstreaker : Option Nat
deriving DecidableEq, Repr

/-- Default record (`impl Default for SKU`): zero defindex, Normal quality,
craftable, no other attributes. -/
def SKU.default : SKU where
  defindex := 0
  quality := qualityNormal
  craftable := true
  australium := false
  strange := false
  festivized := false
  particle := none
  skin := none
  killstreak_tier := none
  wear := none
  target_defindex := none
  output_defindex := none
  output_quality := none
  craft_number := none
  crate_number := none
  paint := none
  sheen := none
  killstreaker := none

/-- Constructor `SKU::new`: the default record with the given defindex and
quality. -/
def SKU.new (defindex : Int) (quality : Nat) : SKU :=
  { SKU.default with defindex := defindex, quality := quality }

/-- Tokenizer: Rust's `str::split(';')`, preserving empty substrings and
yielding a single empty token on empty input. -/
def tokenize : List Char → List (List Char)
  | [] => [[]]
  | c :: cs =>
    if c = ';' then [] :: tokenize cs
    else
      match tokenize cs with
      | t :: ts => (c :: t) :: ts
      | [] => [[c]]

/-- Helper `parse_u32` of the source: parse an unsigned integer, tagging the
failure with the field key. -/
def parse_u32 (key : String) (value : List Char) : Except ParseError Nat :=
  match parseU32Raw value with
  | .ok n => .ok n
  | .error k => .error (.parseInt key k)

/-- Helper `parse_enum_u32` of the source: parse an unsigned integer and then
validate it against the enum domain's code set, reporting the rejected code
on failure. -/
def parse_enum_u32 (codes : List Nat) (key : String) (s : List Char) : Except ParseError Nat :=
  match parse_u32 key s with
  | .ok n => if codes.contains n then .ok n else .error (.invalidValue key n)
  | .error e => .error e

/-- Name/value split of `parse_sku_element`: walk back through the characters
until a non-digit is found; the maximal trailing run of ASCII digits is the
value, the remainder is the name. -/
def split_name_value (e : List Char) : List Char × List Char :=
  ((e.reverse.dropWhile Char.isDigit).reverse, (e.reverse.takeWhile Char.isDigit).reverse)

/-- Name dispatch table of `parse_sku_element`: exact match on the attribute
name, unknown names fall through with no effect. -/
def dispatchName (parsed : SKU) (name value : List Char) : Except ParseError SKU :=
  if name = chars "u" then
    match parse_u32 "particle" value with
    | .ok n => .ok { parsed with particle := some n }
    | .error e => .error e
  else if name = chars "w" then
    match parse_enum_u32 wearCodes "wear" value with
    | .ok n => .ok { parsed with wear := some n }
    | .error e => .error e
  else if name = chars "n" then
    match parse_u32 "craft number" value with
    | .ok n => .ok { parsed with craft_number := some n }
    | .error e => .error e
  else if name = chars "c" then
    match parse_u32 "crate number" value with
    | .ok n => .ok { parsed with crate_number := some n }
    | .error e => .error e
  else if name = chars "p" then
    match parse_enum_u32 paintCodes "paint" value with
    | .ok n => .ok { parsed with paint := some n }
    | .error e => .error e
  else if name = chars "pk" then
    match parse_u32 "skin" value with
    | .ok n => .ok { parsed with skin := some n }
    | .error e => .error e
  else if name = chars "kt-" then
    match parse_enum_u32 killstreakTierCodes "killstreak tier" value with
    | .ok n => .ok { parsed with killstreak_tier := some n }
    | .error e => .error e
  else if name = chars "td-" then
    match parse_u32 "target defindex" value with
    | .ok n => .ok { parsed with target_defindex := some n }
    | .error e => .error e
  else if name = chars "od-" then
    match parse_u32 "output defindex" value with
    | .ok n => .ok { parsed with output_defindex := some n }
    | .error e => .error e
  else if name = chars "oq-" then
    match parse_enum_u32 qualityCodes "output quality" value with
    | .ok n => .ok { parsed with output_quality := some n }
    | .error e => .error e
  else if name = chars "ks-" then
    match parse_enum_u32 sheenCodes "sheen" value with
    | .ok n => .ok { parsed with sheen := some n }
    | .error e => .error e
  else if name = chars "ke-" then
    match parse_enum_u32 killstreakerCodes "killstreaker" value with
    | .ok n => .ok { parsed with killstreaker := some n }
    | .error e => .error e
  else if name = chars "uncraftable" then .ok { parsed with craftable := false }
  else if name = chars "australium" then .ok { parsed with australium := true }
  else if name = chars "strange" then .ok { parsed with strange := true }
  else if name = chars "festive" then .ok { parsed with festivized := true }
  else .ok parsed

/-- Element dispatcher `parse_sku_element`: split one raw token into name and
value, then dispatch on the name. -/
def parse_sku_element (parsed : SKU) (element : List Char) : Except ParseError SKU :=
  dispatchName parsed (split_name_value element).1 (split_name_value element).2

/-- Strict processing of the remaining tokens (the `while let` loop of
`TryFrom<&str>`): left to right, stopping at the first failure. -/
def processTokens (sku : SKU) : List (List Char) → Except ParseError SKU
  | [] => .ok sku
  | t :: ts =>
    match parse_sku_element sku t with
    | .ok sku' => processTokens sku' ts
    | .error e => .error e

/-- Strict decoder (`impl TryFrom<&str> for SKU`): requires a defindex token
and a quality token, then dispatches every remaining token, propagating the
first failure. -/
def SKU.try_from (s : List Char) : Except ParseError SKU :=
  match tokenize s with
  | d :: q :: rest =>
    match parseI32Raw d with
    | .error k => .error (.parseInt "defindex" k)
    | .ok defindex =>
      match parse_enum_u32 qualityCodes "quality" q with
      | .error e => .error e
      | .ok quality => processTokens (SKU.new defindex quality) rest
  | _ => .error .invalidFormat

/-- Lossy application of the element dispatcher (`parse_sku_element(..).ok()`
in the source): failures are discarded, leaving the record unchanged. -/
def applyLossy (sku : SKU) (e : List Char) : SKU :=
  match parse_sku_element sku e with
  | .ok sku' => sku'
  | .error _ => sku

/-- Lossy decoder (`SKU::from_str`): never fails; unparseable defindex or
quality tokens degrade to sentinels (`-1`, `Quality::Rarity2`) and are also
run through the element dispatcher; all remaining dispatch failures are
silently discarded. -/
def SKU.from_str (s : List Char) : SKU :=
  let toks := tokenize s
  let defindexStr := toks.getD 0 []
  let qualityStr := toks.getD 1 []
  let rest := toks.drop 2
  let p1 :=
    match parseI32Raw defindexStr with
    | .ok d => { SKU.default with defindex := d }
    | .error _ => applyLossy { SKU.default with defindex := -1 } defindexStr
  let p2 :=
    match parse_enum_u32 qualityCodes "quality" qualityStr with
    | .ok q => { p1 with quality := q }
    | .error _ => applyLossy { p1 with quality := qualityRarity2 } qualityStr
  rest.foldl applyLossy p2

/-- Append an optional value-carrying segment to the string being built, as
one `if let Some(v) = ... { string.push_str(...) }` block of `Display`. -/
def app1 (s : List Char) (o : Option Nat) (f : Nat → List Char) : List Char :=
  match o with
  | some v => s ++ ';' :: f v
  | none => s

/-- Append a flag segment to the string being built, as one
`if flag { string.push_str(...) }` block of `Display`. -/
def appFlag (s : List Char) (b : Bool) (seg : List Char) : List Char :=
  if b then s ++ ';' :: seg else s

/-- Formatter (`impl fmt::Display for SKU`, also `to_sku_string`): defindex
and quality code, then the optional segments in the fixed source order. -/
def SKU.to_sku_string (r : SKU) : List Char :=
  let s0 := intChars r.defindex ++ ';' :: natChars r.quality
  let s1 := app1 s0 r.particle (fun p => 'u' :: natChars p)
  let s2 := appFlag s1 (!r.craftable) (chars "uncraftable")
  let s3 := appFlag s2 r.australium (chars "australium")
  let s4 := appFlag s3 r.strange (chars "strange")
  let s5 := app1 s4 r.wear (fun c => 'w' :: natChars c)
  let s6 := app1 s5 r.skin (fun v => 'p' :: 'k' :: natChars v)
  let s7 := app1 s6 r.killstreak_tier (fun c => chars "kt-" ++ natChars c)
  let s8 := appFlag s7 r.festivized (chars "festive")
  let s9 := app1 s8 r.crate_number (fun v => 'c' :: natChars v)
  let s10 := app1 s9 r.craft_number (fun v => 'n' :: natChars v)
  let s11 := app1 s10 r.target_defindex (fun v => chars "td-" ++ natChars v)
  let s12 := app1 s11 r.output_defindex (fun v => chars "od-" ++ natChars v)
  let s13 := app1 s12 r.output_quality (fun c => chars "oq-" ++ natChars c)
  let s14 := app1 s13 r.paint (fun c => 'p' :: natChars c)
  let s15 := app1 s14 r.sheen (fun c => chars "ks-" ++ natChars c)
  app1 s15 r.killstreaker (fun c => chars "ke-" ++ natChars c)

/-- Optional value-carrying segment as a zero- or one-element token list
(proof-side view of one `Display` block). -/
def pOpt (o : Option Nat) (f : Nat → List Char) : List (List Char) :=
  match o with
  | some v => [f v]
  | none => []

/-- Flag segment as a zero- or one-element token list (proof-side view of one
`Display` block). -/
def pFlag (b : Bool) (seg : List Char) : List (List Char) :=
  if b then [seg] else []

/-- Segment token list of the formatter, in the fixed source order. -/
def fmtSegs (r : SKU) : List (List Char) :=
  pOpt r.particle (fun p => 'u' :: natChars p) ++
  pFlag (!r.craftable) (chars "uncraftable") ++
  pFlag r.australium (chars "australium") ++
  pFlag r.strange (chars "strange") ++
  pOpt r.wear (fun c => 'w' :: natChars c) ++
  pOpt r.skin (fun v => 'p' :: 'k' :: natChars v) ++
  pOpt r.killstreak_tier (fun c => chars "kt-" ++ natChars c) ++
  pFlag r.festivized (chars "festive") ++
  pOpt r.crate_number (fun v => 'c' :: natChars v) ++
  pOpt r.craft_number (fun v => 'n' :: natChars v) ++
  pOpt r.target_defindex (fun v => chars "td-" ++ natChars v) ++
  pOpt r.output_defindex (fun v => chars "od-" ++ natChars v) ++
  pOpt r.output_quality (fun c => chars "oq-" ++ natChars c) ++
  pOpt r.paint (fun c => 'p' :: natChars c) ++
  pOpt r.sheen (fun c => chars "ks-" ++ natChars c) ++
  pOpt r.killstreaker (fun c => chars "ke-" ++ natChars c)

/-- Join segments into the tail of the formatted string, prefixing each with
the delimiter. -/
def segsJoin : List (List Char) → List Char
  | [] => []
  | seg :: rest => ';' :: (seg ++ segsJoin rest)

/-- Attribute names recognized by the element dispatcher. -/
def knownNames : List (List Char) :=
  [chars "u", chars "w", chars "n", chars "c", chars "p", chars "pk",
   chars "kt-", chars "td-", chars "od-", chars "oq-", chars "ks-", chars "ke-",
   chars "uncraftable", chars "australium", chars "strange", chars "festive"]

/-- UTF-8 encoded length of one character. -/
def utf8Len (c : Char) : Nat :=
  if c.toNat < 128 then 1
  else if c.toNat < 2048 then 2
  else if c.toNat < 65536 then 3
  else 4

/-- UTF-8 encoded byte length of a character list (Rust's `str::len`). -/
def byteLen (l : List Char) : Nat := (l.map utf8Len).sum

/-- Number of characters removed by the trailing-digit scan; the source
subtracts exactly this count from the byte length to obtain its split
index. -/
def trailingDigitCount (e : List Char) : Nat := (e.reverse.takeWhile Char.isDigit).length

/-- Boolean success test for `Except`. -/
def isOkB {ε α : Type} : Except ε α → Bool
  | .ok _ => true
  | .error _ => false

/-- Value of a digit string read left to right from an accumulator. -/
def digitsValFrom (a : Nat) (l : List Char) : Nat :=
  l.foldl (fun x c => x * 10 + digitVal c) a

/-- Value of a digit string. -/
def digitsVal (l : List Char) : Nat := digitsValFrom 0 l

/-- Syntactic acceptance condition of Rust's `str::parse::<i32>`: an optional
leading plus or minus sign followed by at least one ASCII digit, with the
value inside `i32` range. -/
def i32TokenOk (s : List Char) : Bool :=
  match s with
  | [] => false
  | c :: rest =>
    if c = '+' then
      !rest.isEmpty && rest.all Char.isDigit && decide (digitsVal rest < 2147483648)
    else if c = '-' then
      !rest.isEmpty && rest.all Char.isDigit && decide (digitsVal rest < 2147483649)
    else
      (c :: rest).all Char.isDigit && decide (digitsVal (c :: rest) < 2147483648)

/-- Test that every value held by an optional field satisfies a bound. -/
def inOpt (o : Option Nat) (p : Nat → Bool) : Bool :=
  match o with
  | none => true
  | some v => p v

/-- Range and domain constraints that every Rust-typed `SKU` value satisfies:
`i32` defindex, `u32` plain numeric fields, and enum codes inside their
domains.  Records decoded by the source always satisfy this. -/
def validSKU (r : SKU) : Bool :=
  decide (-2147483648 ≤ r.defindex) && decide (r.defindex < 2147483648) &&
  qualityCodes.contains r.quality &&
  inOpt r.particle (fun v => decide (v < 4294967296)) &&
  inOpt r.skin (fun v => decide (v < 4294967296)) &&
  inOpt r.killstreak_tier killstreakTierCodes.contains &&
  inOpt r.wear wearCodes.contains &&
  inOpt r.target_defindex (fun v => decide (v < 4294967296)) &&
  inOpt r.output_defindex (fun v => decide (v < 4294967296)) &&
  inOpt r.output_quality qualityCodes.contains &&
  inOpt r.craft_number (fun v => decide (v < 4294967296)) &&
  inOpt r.crate_number (fun v => decide (v < 4294967296)) &&
  inOpt r.paint paintCodes.contains &&
  inOpt r.sheen sheenCodes.contains &&
  inOpt r.killstreaker killstreakerCodes.contains

/-! Basic facts about ASCII digits. -/

theorem isDigit_toNat {c : Char} (h : c.isDigit = true) : 48 ≤ c.toNat ∧ c.toNat ≤ 57 := by
  unfold Char.isDigit at h
  simp at h
  exact h

theorem toNat_lt_of_isDigit {c : Char} (h : c.isDigit = true) : c.toNat < 128 := by
  have := isDigit_toNat h
  omega

theorem ne_of_isDigit {c d : Char} (h : c.isDigit = true) (hd : d.isDigit = false) : c ≠ d := by
  intro heq
  rw [heq] at h
  rw [h] at hd
  exact Bool.noConfusion hd

theorem isDigit_digitChar {d : Nat} (h : d < 10) : (digitChar d).isDigit = true := by
  interval_cases d <;> decide

theorem digitVal_digitChar {d : Nat} (h : d < 10) : digitVal (digitChar d) = d := by
  interval_cases d <;> decide

theorem not_semi_of_isDigit {c : Char} (h : c.isDigit = true) : c ≠ ';' :=
  ne_of_isDigit h (by decide)

/-! Facts about the decimal rendering `natChars`. -/

theorem natCharsAux_eq (n : Nat) : ∀ fuel acc, n < fuel → natCharsAux fuel n acc = natChars n ++ acc := by
  induction n using Nat.strong_induction_on with
  | _ n ih =>
    intro fuel acc hlt
    match fuel with
    | 0 => omega
    | f + 1 =>
      by_cases h10 : n < 10
      · simp [natCharsAux, natChars, h10]
      · have hdiv : n / 10 < n := Nat.div_lt_self (by omega) (by omega)
        have hstep : ∀ a, natCharsAux (f + 1) n a = natCharsAux f (n / 10) (digitChar (n % 10) :: a) := by
          intro a
          simp [natCharsAux, h10]
        have hself : natChars n = natChars (n / 10) ++ [digitChar (n % 10)] := by
          show natCharsAux (n + 1) n [] = _
          have hstep' : natCharsAux (n + 1) n [] = natCharsAux n (n / 10) [digitChar (n % 10)] := by
            simp [natCharsAux, h10]
          rw [hstep', ih (n / 10) hdiv n [digitChar (n % 10)] (by omega)]
        rw [hstep, ih (n / 10) hdiv f (digitChar (n % 10) :: acc) (by omega), hself]
        simp

theorem natChars_eq_split (n : Nat) :
    natChars n = if n < 10 then [digitChar n] else natChars (n / 10) ++ [digitChar (n % 10)] := by
  by_cases h10 : n < 10
  · simp [natChars, natCharsAux, h10]
  · have hdiv : n / 10 < n := Nat.div_lt_self (by omega) (by omega)
    rw [if_neg h10]
    show natCharsAux (n + 1) n [] = _
    have hstep : natCharsAux (n + 1) n [] = natCharsAux n (n / 10) [digitChar (n % 10)] := by
      simp [natCharsAux, h10]
    rw [hstep, natCharsAux_eq (n / 10) n [digitChar (n % 10)] (by omega)]

theorem natChars_ne_nil (n : Nat) : natChars n ≠ [] := by
  rw [natChars_eq_split]
  by_cases h10 : n < 10 <;> simp [h10]

theorem natChars_all_digit (n : Nat) : (natChars n).all Char.isDigit = true := by
  induction n using Nat.strong_induction_on with
  | _ n ih =>
    rw [natChars_eq_split]
    by_cases h10 : n < 10
    · simp [h10, isDigit_digitChar h10]
    · have hdiv : n / 10 < n := Nat.div_lt_self (by omega) (by omega)
      simp [h10, List.all_append, ih (n / 10) hdiv,
        isDigit_digitChar (Nat.mod_lt n (by omega))]

theorem digitsValFrom_cons (a : Nat) (c : Char) (l : List Char) :
    digitsValFrom a (c :: l) = digitsValFrom (a * 10 + digitVal c) l := rfl

theorem digitsValFrom_append (a : Nat) (l₁ l₂ : List Char) :
    digitsValFrom a (l₁ ++ l₂) = digitsValFrom (digitsValFrom a l₁) l₂ := by
  simp [digitsValFrom, List.foldl_append]

theorem digitsVal_natChars (n : Nat) : digitsVal (natChars n) = n := by
  induction n using Nat.strong_induction_on with
  | _ n ih =>
    rw [natChars_eq_split]
    by_cases h10 : n < 10
    · simp [h10, digitsVal, digitsValFrom, digitVal_digitChar h10]
    · have hdiv : n / 10 < n := Nat.div_lt_self (by omega) (by omega)
      rw [if_neg h10]
      show digitsValFrom 0 _ = n
      rw [digitsValFrom_append]
      have : digitsValFrom 0 (natChars (n / 10)) = n / 10 := ih (n / 10) hdiv
      rw [this]
      show (n / 10) * 10 + digitVal (digitChar (n % 10)) = n
      rw [digitVal_digitChar (Nat.mod_lt n (by omega))]
      omega

/-! Facts about the digit-accumulation loop shared by the integer parsers. -/

theorem digitsValFrom_ge (l : List Char) : ∀ a, a ≤ digitsValFrom a l := by
  induction l with
  | nil => intro a; exact Nat.le_refl a
  | cons c cs ih =>
    intro a
    rw [digitsValFrom_cons]
    exact Nat.le_trans (by omega) (ih (a * 10 + digitVal c))

theorem digitsLoop_ok_of_lt (ov : IntErrorKind) (bound : Nat) (l : List Char) :
    ∀ a, l.all Char.isDigit = true → digitsValFrom a l < bound →
      digitsLoop ov bound a l = .ok (digitsValFrom a l) := by
  induction l with
  | nil => intro a _ _; rfl
  | cons c cs ih =>
    intro a hall hlt
    rw [List.all_cons, Bool.and_eq_true] at hall
    rw [digitsValFrom_cons] at hlt
    have hle : a * 10 + digitVal c ≤ digitsValFrom (a * 10 + digitVal c) cs :=
      digitsValFrom_ge cs (a * 10 + digitVal c)
    rw [digitsLoop, if_pos hall.1, if_neg (by omega), ih (a * 10 + digitVal c) hall.2 hlt,
      digitsValFrom_cons]

theorem digitsLoop_isOk (ov : IntErrorKind) (bound : Nat) (l : List Char) :
    ∀ a, a < bound →
      isOkB (digitsLoop ov bound a l) = (l.all Char.isDigit && decide (digitsValFrom a l < bound)) := by
  induction l with
  | nil =>
    intro a ha
    simp [digitsLoop, isOkB, digitsValFrom, ha]
  | cons c cs ih =>
    intro a ha
    rw [digitsLoop]
    by_cases hd : c.isDigit = true
    · rw [if_pos hd]
      by_cases hov : bound ≤ a * 10 + digitVal c
      · have hge : bound ≤ digitsValFrom a (c :: cs) := by
          rw [digitsValFrom_cons]
          exact Nat.le_trans hov (digitsValFrom_ge cs _)
        have hdec : decide (digitsValFrom a (c :: cs) < bound) = false := by
          rw [decide_eq_false_iff_not]
          omega
        rw [if_pos hov]
        simp [isOkB, hdec]
      · rw [if_neg hov, ih (a * 10 + digitVal c) (by omega), digitsValFrom_cons,
          List.all_cons, hd]
        simp
    · have hdf : c.isDigit = false := by
        revert hd
        cases c.isDigit <;> simp
      rw [if_neg hd]
      simp [isOkB, List.all_cons, hdf]

/-! Round trips between the decimal renderers and the integer parsers. -/

theorem parseU32Raw_natChars {n : Nat} (h : n < 4294967296) :
    parseU32Raw (natChars n) = .ok n := by
  have hall := natChars_all_digit n
  have hval : digitsValFrom 0 (natChars n) = n := digitsVal_natChars n
  cases hcs : natChars n with
  | nil => exact absurd hcs (natChars_ne_nil n)
  | cons c rest =>
    have hd : c.isDigit = true := by
      rw [hcs, List.all_cons, Bool.and_eq_true] at hall
      exact hall.1
    rw [parseU32Raw, if_neg (ne_of_isDigit hd (by decide)), ← hcs]
    rw [hcs] at hval hall ⊢
    rw [digitsLoop_ok_of_lt _ _ _ 0 hall (by omega), hval]

theorem parse_u32_natChars (key : String) {n : Nat} (h : n < 4294967296) :
    parse_u32 key (natChars n) = .ok n := by
  rw [parse_u32, parseU32Raw_natChars h]

theorem parse_enum_u32_natChars (codes : List Nat) (key : String) {n : Nat}
    (hmem : codes.contains n = true) (h : n < 4294967296) :
    parse_enum_u32 codes key (natChars n) = .ok n := by
  rw [parse_enum_u32, parse_u32_natChars key h]
  have hmem' : n ∈ codes := by simpa using hmem
  simp [hmem']

theorem digitsValFrom_zero_natChars (n : Nat) : digitsValFrom 0 (natChars n) = n :=
  digitsVal_natChars n

theorem parseI32Raw_intChars {i : Int} (hlo : -2147483648 ≤ i) (hhi : i < 2147483648) :
    parseI32Raw (intChars i) = .ok i := by
  by_cases hneg : i < 0
  · rw [intChars, if_pos hneg, parseI32Raw, if_neg (by decide), if_pos rfl,
      if_neg (natChars_ne_nil i.natAbs)]
    have hlt : digitsValFrom 0 (natChars i.natAbs) < 2147483649 := by
      rw [digitsValFrom_zero_natChars]
      omega
    rw [digitsLoop_ok_of_lt _ _ _ 0 (natChars_all_digit i.natAbs) hlt,
      digitsValFrom_zero_natChars]
    have hval : -((i.natAbs : Nat) : Int) = i := by omega
    show Except.ok (-((i.natAbs : Nat) : Int)) = Except.ok i
    rw [hval]
  · rw [intChars, if_neg hneg]
    have hall := natChars_all_digit i.toNat
    cases hcs : natChars i.toNat with
    | nil => exact absurd hcs (natChars_ne_nil i.toNat)
    | cons c rest =>
      have hd : c.isDigit = true := by
        rw [hcs, List.all_cons, Bool.and_eq_true] at hall
        exact hall.1
      rw [parseI32Raw, if_neg (ne_of_isDigit hd (by decide)),
        if_neg (ne_of_isDigit hd (by decide)), ← hcs]
      have hlt : digitsValFrom 0 (natChars i.toNat) < 2147483648 := by
        rw [digitsValFrom_zero_natChars]
        omega
      rw [digitsLoop_ok_of_lt _ _ _ 0 (natChars_all_digit i.toNat) hlt,
        digitsValFrom_zero_natChars]
      have hval : (Int.ofNat i.toNat) = i := by
        simpa using Int.toNat_of_nonneg (le_of_not_lt hneg)
      show Except.ok (Int.ofNat i.toNat) = Except.ok i
      rw [hval]

/-! Facts about `takeWhile`/`dropWhile` used by the trailing-digit scan. -/

theorem takeWhile_append_of_all {p : Char → Bool} {l₁ : List Char} (l₂ : List Char)
    (h : l₁.all p = true) : (l₁ ++ l₂).takeWhile p = l₁ ++ l₂.takeWhile p := by
  induction l₁ with
  | nil => simp
  | cons c cs ih =>
    rw [List.all_cons, Bool.and_eq_true] at h
    simp [List.takeWhile_cons, h.1, ih h.2]

theorem dropWhile_append_of_all {p : Char → Bool} {l₁ : List Char} (l₂ : List Char)
    (h : l₁.all p = true) : (l₁ ++ l₂).dropWhile p = l₂.dropWhile p := by
  induction l₁ with
  | nil => simp
  | cons c cs ih =>
    rw [List.all_cons, Bool.and_eq_true] at h
    simp [List.dropWhile_cons, h.1, ih h.2]

theorem all_takeWhile (p : Char → Bool) (l : List Char) : (l.takeWhile p).all p = true := by
  induction l with
  | nil => rfl
  | cons c cs ih =>
    rw [List.takeWhile_cons]
    by_cases hc : p c = true
    · simp [hc, ih]
    · simp [hc]

theorem dropWhile_eq_self_of_takeWhile_nil {p : Char → Bool} {l : List Char}
    (h : l.takeWhile p = []) : l.dropWhile p = l := by
  cases l with
  | nil => rfl
  | cons c cs =>
    rw [List.takeWhile_cons] at h
    by_cases hc : p c = true
    · rw [if_pos hc] at h
      exact absurd h (by simp)
    · simp [List.dropWhile_cons, hc]

/-! Facts about the name/value split of the element dispatcher. -/

theorem split_name_value_append (name value : List Char)
    (hv : value.all Char.isDigit = true)
    (hn : name.reverse.takeWhile Char.isDigit = []) :
    split_name_value (name ++ value) = (name, value) := by
  have hvrev : value.reverse.all Char.isDigit = true := by
    rw [List.all_reverse]
    exact hv
  rw [split_name_value, List.reverse_append,
    takeWhile_append_of_all name.reverse hvrev,
    dropWhile_append_of_all name.reverse hvrev, hn,
    dropWhile_eq_self_of_takeWhile_nil hn]
  simp

theorem split_name_value_recombine (e : List Char) :
    (split_name_value e).1 ++ (split_name_value e).2 = e := by
  rw [split_name_value]
  show (e.reverse.dropWhile Char.isDigit).reverse ++ (e.reverse.takeWhile Char.isDigit).reverse = e
  rw [← List.reverse_append, List.takeWhile_append_dropWhile, List.reverse_reverse]

theorem split_name_value_digits (e : List Char) :
    (split_name_value e).2.all Char.isDigit = true := by
  rw [split_name_value]
  show (e.reverse.takeWhile Char.isDigit).reverse.all Char.isDigit = true
  rw [List.all_reverse]
  exact all_takeWhile Char.isDigit e.reverse

/-! Facts about the tokenizer. -/

theorem tokenize_ne_nil (s : List Char) : tokenize s ≠ [] := by
  cases s with
  | nil => simp [tokenize]
  | cons c cs =>
    rw [tokenize]
    by_cases hc : c = ';'
    · simp [hc]
    · rw [if_neg hc]
      cases htl : tokenize cs <;> simp

theorem tokenize_no_semi {a : List Char} (h : ';' ∉ a) : tokenize a = [a] := by
  induction a with
  | nil => rfl
  | cons c cs ih =>
    rw [List.mem_cons, not_or] at h
    rw [tokenize, if_neg (fun hc => h.1 hc.symm), ih h.2]

theorem tokenize_append_semi {a : List Char} (b : List Char) (h : ';' ∉ a) :
    tokenize (a ++ ';' :: b) = a :: tokenize b := by
  induction a with
  | nil => simp [tokenize]
  | cons c cs ih =>
    rw [List.mem_cons, not_or] at h
    rw [List.cons_append, tokenize, if_neg (fun hc => h.1 hc.symm), ih h.2]

theorem tokenize_join {a : List Char} (segs : List (List Char)) (ha : ';' ∉ a)
    (hsegs : ∀ seg ∈ segs, ';' ∉ seg) :
    tokenize (a ++ segsJoin segs) = a :: segs := by
  induction segs generalizing a with
  | nil =>
    rw [segsJoin, List.append_nil, tokenize_no_semi ha]
  | cons seg rest ih =>
    rw [segsJoin, tokenize_append_semi (seg ++ segsJoin rest) ha,
      ih (hsegs seg (by simp)) (fun t ht => hsegs t (by simp [ht]))]

theorem no_semi_of_digits {l : List Char} (h : l.all Char.isDigit = true) : ';' ∉ l := by
  intro hmem
  rw [List.all_eq_true] at h
  have := h ';' hmem
  exact absurd this (by decide)

theorem no_semi_natChars (n : Nat) : ';' ∉ natChars n :=
  no_semi_of_digits (natChars_all_digit n)

theorem no_semi_intChars (i : Int) : ';' ∉ intChars i := by
  rw [intChars]
  by_cases hneg : i < 0
  · rw [if_pos hneg]
    intro hmem
    rw [List.mem_cons] at hmem
    cases hmem with
    | inl h => exact absurd h (by decide)
    | inr h => exact no_semi_natChars i.natAbs h
  · rw [if_neg hneg]
    exact no_semi_natChars i.toNat

/-! Behaviour of the element dispatcher on each recognized token shape. -/

theorem parse_sku_element_u (sku : SKU) (p : Nat) (hp : p < 4294967296) :
    parse_sku_element sku ('u' :: natChars p) = .ok { sku with particle := some p } := by
  have hsplit : split_name_value ('u' :: natChars p) = (chars "u", natChars p) :=
    split_name_value_append (chars "u") (natChars p) (natChars_all_digit p) (by decide)
  unfold parse_sku_element
  rw [hsplit]
  show dispatchName sku (chars "u") (natChars p) = _
  unfold dispatchName
  rw [if_pos rfl, parse_u32_natChars "particle" hp]

theorem parse_sku_element_w (sku : SKU) (c : Nat) (hmem : wearCodes.contains c = true)
    (hc : c < 4294967296) :
    parse_sku_element sku ('w' :: natChars c) = .ok { sku with wear := some c } := by
  have hsplit : split_name_value ('w' :: natChars c) = (chars "w", natChars c) :=
    split_name_value_append (chars "w") (natChars c) (natChars_all_digit c) (by decide)
  unfold parse_sku_element
  rw [hsplit]
  show dispatchName sku (chars "w") (natChars c) = _
  unfold dispatchName
  rw [if_neg (by decide), if_pos rfl, parse_enum_u32_natChars wearCodes "wear" hmem hc]

theorem parse_sku_element_n (sku : SKU) (v : Nat) (hv : v < 4294967296) :
    parse_sku_element sku ('n' :: natChars v) = .ok { sku with craft_number := some v } := by
  have hsplit : split_name_value ('n' :: natChars v) = (chars "n", natChars v) :=
    split_name_value_append (chars "n") (natChars v) (natChars_all_digit v) (by decide)
  unfold parse_sku_element
  rw [hsplit]
  show dispatchName sku (chars "n") (natChars v) = _
  unfold dispatchName
  rw [if_neg (by decide), if_neg (by decide), if_pos rfl,
    parse_u32_natChars "craft number" hv]

theorem parse_sku_element_c (sku : SKU) (v : Nat) (hv : v < 4294967296) :
    parse_sku_element sku ('c' :: natChars v) = .ok { sku with crate_number := some v } := by
  have hsplit : split_name_value ('c' :: natChars v) = (chars "c", natChars v) :=
    split_name_value_append (chars "c") (natChars v) (natChars_all_digit v) (by decide)
  unfold parse_sku_element
  rw [hsplit]
  show dispatchName sku (chars "c") (natChars v) = _
  unfold dispatchName
  rw [if_neg (by decide), if_neg (by decide), if_neg (by decide), if_pos rfl,
    parse_u32_natChars "crate number" hv]

theorem parse_sku_element_p (sku : SKU) (c : Nat) (hmem : paintCodes.contains c = true)
    (hc : c < 4294967296) :
    parse_sku_element sku ('p' :: natChars c) = .ok { sku with paint := some c } := by
  have hsplit : split_name_value ('p' :: natChars c) = (chars "p", natChars c) :=
    split_name_value_append (chars "p") (natChars c) (natChars_all_digit c) (by decide)
  unfold parse_sku_element
  rw [hsplit]
  show dispatchName sku (chars "p") (natChars c) = _
  unfold dispatchName
  rw [if_neg (by decide), if_neg (by decide), if_neg (by decide), if_neg (by decide),
    if_pos rfl, parse_enum_u32_natChars paintCodes "paint" hmem hc]

theorem parse_sku_element_pk (sku : SKU) (v : Nat) (hv : v < 4294967296) :
    parse_sku_element sku ('p' :: 'k' :: natChars v) = .ok { sku with skin := some v } := by
  have hsplit : split_name_value ('p' :: 'k' :: natChars v) = (chars "pk", natChars v) :=
    split_name_value_append (chars "pk") (natChars v) (natChars_all_digit v) (by decide)
  unfold parse_sku_element
  rw [hsplit]
  show dispatchName sku (chars "pk") (natChars v) = _
  unfold dispatchName
  rw [if_neg (by decide), if_neg (by decide), if_neg (by decide), if_neg (by decide),
    if_neg (by decide), if_pos rfl, parse_u32_natChars "skin" hv]

theorem parse_sku_element_kt (sku : SKU) (c : Nat)
    (hmem : killstreakTierCodes.contains c = true) (hc : c < 4294967296) :
    parse_sku_element sku (chars "kt-" ++ natChars c) =
      .ok { sku with killstreak_tier := some c } := by
  have hsplit : split_name_value (chars "kt-" ++ natChars c) = (chars "kt-", natChars c) :=
    split_name_value_append (chars "kt-") (natChars c) (natChars_all_digit c) (by decide)
  unfold parse_sku_element
  rw [hsplit]
  show dispatchName sku (chars "kt-") (natChars c) = _
  unfold dispatchName
  rw [if_neg (by decide), if_neg (by decide), if_neg (by decide), if_neg (by decide),
    if_neg (by decide), if_neg (by decide), if_pos rfl,
    parse_enum_u32_natChars killstreakTierCodes "killstreak tier" hmem hc]

theorem parse_sku_element_td (sku : SKU) (v : Nat) (hv : v < 4294967296) :
    parse_sku_element sku (chars "td-" ++ natChars v) =
      .ok { sku with target_defindex := some v } := by
  have hsplit : split_name_value (chars "td-" ++ natChars v) = (chars "td-", natChars v) :=
    split_name_value_append (chars "td-") (natChars v) (natChars_all_digit v) (by decide)
  unfold parse_sku_element
  rw [hsplit]
  show dispatchName sku (chars "td-") (natChars v) = _
  unfold dispatchName
  rw [if_neg (by decide), if_neg (by decide), if_neg (by decide), if_neg (by decide),
    if_neg (by decide), if_neg (by decide), if_neg (by decide), if_pos rfl,
    parse_u32_natChars "target defindex" hv]

theorem parse_sku_element_od (sku : SKU) (v : Nat) (hv : v < 4294967296) :
    parse_sku_element sku (chars "od-" ++ natChars v) =
      .ok { sku with output_defindex := some v } := by
  have hsplit : split_name_value (chars "od-" ++ natChars v) = (chars "od-", natChars v) :=
    split_name_value_append (chars "od-") (natChars v) (natChars_all_digit v) (by decide)
  unfold parse_sku_element
  rw [hsplit]
  show dispatchName sku (chars "od-") (natChars v) = _
  unfold dispatchName
  rw [if_neg (by decide), if_neg (by decide), if_neg (by decide), if_neg (by decide),
    if_neg (by decide), if_neg (by decide), if_neg (by decide), if_neg (by decide),
    if_pos rfl, parse_u32_natChars "output defindex" hv]

theorem parse_sku_element_oq (sku : SKU) (c : Nat)
    (hmem : qualityCodes.contains c = true) (hc : c < 4294967296) :
    parse_sku_element sku (chars "oq-" ++ natChars c) =
      .ok { sku with output_quality := some c } := by
  have hsplit : split_name_value (chars "oq-" ++ natChars c) = (chars "oq-", natChars c) :=
    split_name_value_append (chars "oq-") (natChars c) (natChars_all_digit c) (by decide)
  unfold parse_sku_element
  rw [hsplit]
  show dispatchName sku (chars "oq-") (natChars c) = _
  unfold dispatchName
  rw [if_neg (by decide), if_neg (by decide), if_neg (by decide), if_neg (by decide),
    if_neg (by decide), if_neg (by decide), if_neg (by decide), if_neg (by decide),
    if_neg (by decide), if_pos rfl,
    parse_enum_u32_natChars qualityCodes "output quality" hmem hc]

theorem parse_sku_element_ks (sku : SKU) (c : Nat)
    (hmem : sheenCodes.contains c = true) (hc : c < 4294967296) :
    parse_sku_element sku (chars "ks-" ++ natChars c) = .ok { sku with sheen := some c } := by
  have hsplit : split_name_value (chars "ks-" ++ natChars c) = (chars "ks-", natChars c) :=
    split_name_value_append (chars "ks-") (natChars c) (natChars_all_digit c) (by decide)
  unfold parse_sku_element
  rw [hsplit]
  show dispatchName sku (chars "ks-") (natChars c) = _
  unfold dispatchName
  rw [if_neg (by decide), if_neg (by decide), if_neg (by decide), if_neg (by decide),
    if_neg (by decide), if_neg (by decide), if_neg (by decide), if_neg (by decide),
    if_neg (by decide), if_neg (by decide), if_pos rfl,
    parse_enum_u32_natChars sheenCodes "sheen" hmem hc]

theorem parse_sku_element_ke (sku : SKU) (c : Nat)
    (hmem : killstreakerCodes.contains c = true) (hc : c < 4294967296) :
    parse_sku_element sku (chars "ke-" ++ natChars c) =
      .ok { sku with killstreaker := some c } := by
  have hsplit : split_name_value (chars "ke-" ++ natChars c) = (chars "ke-", natChars c) :=
    split_name_value_append (chars "ke-") (natChars c) (natChars_all_digit c) (by decide)
  unfold parse_sku_element
  rw [hsplit]
  show dispatchName sku (chars "ke-") (natChars c) = _
  unfold dispatchName
  rw [if_neg (by decide), if_neg (by decide), if_neg (by decide), if_neg (by decide),
    if_neg (by decide), if_neg (by decide), if_neg (by decide), if_neg (by decide),
    if_neg (by decide), if_neg (by decide), if_neg (by decide), if_pos rfl,
    parse_enum_u32_natChars killstreakerCodes "killstreaker" hmem hc]

theorem parse_sku_element_uncraftable (sku : SKU) (ds : List Char)
    (hds : ds.all Char.isDigit = true) :
    parse_sku_element sku (chars "uncraftable" ++ ds) = .ok { sku with craftable := false } := by
  have hsplit : split_name_value (chars "uncraftable" ++ ds) = (chars "uncraftable", ds) :=
    split_name_value_append (chars "uncraftable") ds hds (by decide)
  unfold parse_sku_element
  rw [hsplit]
  show dispatchName sku (chars "uncraftable") ds = _
  unfold dispatchName
  rw [if_neg (by decide), if_neg (by decide), if_neg (by decide), if_neg (by decide),
    if_neg (by decide), if_neg (by decide), if_neg (by decide), if_neg (by decide),
    if_neg (by decide), if_neg (by decide), if_neg (by decide), if_neg (by decide),
    if_pos rfl]

theorem parse_sku_element_australium (sku : SKU) (ds : List Char)
    (hds : ds.all Char.isDigit = true) :
    parse_sku_element sku (chars "australium" ++ ds) = .ok { sku with australium := true } := by
  have hsplit : split_name_value (chars "australium" ++ ds) = (chars "australium", ds) :=
    split_name_value_append (chars "australium") ds hds (by decide)
  unfold parse_sku_element
  rw [hsplit]
  show dispatchName sku (chars "australium") ds = _
  unfold dispatchName
  rw [if_neg (by decide), if_neg (by decide), if_neg (by decide), if_neg (by decide),
    if_neg (by decide), if_neg (by decide), if_neg (by decide), if_neg (by decide),
    if_neg (by decide), if_neg (by decide), if_neg (by decide), if_neg (by decide),
    if_neg (by decide), if_pos rfl]

theorem parse_sku_element_strange (sku : SKU) (ds : List Char)
    (hds : ds.all Char.isDigit = true) :
    parse_sku_element sku (chars "strange" ++ ds) = .ok { sku with strange := true } := by
  have hsplit : split_name_value (chars "strange" ++ ds) = (chars "strange", ds) :=
    split_name_value_append (chars "strange") ds hds (by decide)
  unfold parse_sku_element
  rw [hsplit]
  show dispatchName sku (chars "strange") ds = _
  unfold dispatchName
  rw [if_neg (by decide), if_neg (by decide), if_neg (by decide), if_neg (by decide),
    if_neg (by decide), if_neg (by decide), if_neg (by decide), if_neg (by decide),
    if_neg (by decide), if_neg (by decide), if_neg (by decide), if_neg (by decide),
    if_neg (by decide), if_neg (by decide), if_pos rfl]

theorem parse_sku_element_festive (sku : SKU) (ds : List Char)
    (hds : ds.all Char.isDigit = true) :
    parse_sku_element sku (chars "festive" ++ ds) = .ok { sku with festivized := true } := by
  have hsplit : split_name_value (chars "festive" ++ ds) = (chars "festive", ds) :=
    split_name_value_append (chars "festive") ds hds (by decide)
  unfold parse_sku_element
  rw [hsplit]
  show dispatchName sku (chars "festive") ds = _
  unfold dispatchName
  rw [if_neg (by decide), if_neg (by decide), if_neg (by decide), if_neg (by decide),
    if_neg (by decide), if_neg (by decide), if_neg (by decide), if_neg (by decide),
    if_neg (by decide), if_neg (by decide), if_neg (by decide), if_neg (by decide),
    if_neg (by decide), if_neg (by decide), if_neg (by decide), if_pos rfl]

theorem parse_sku_element_unknown (sku : SKU) (e : List Char)
    (h : (split_name_value e).1 ∉ knownNames) : parse_sku_element sku e = .ok sku := by
  simp only [knownNames, List.mem_cons, List.not_mem_nil, or_false, not_or] at h
  obtain ⟨h1, h2, h3, h4, h5, h6, h7, h8, h9, h10, h11, h12, h13, h14, h15, h16⟩ := h
  unfold parse_sku_element dispatchName
  rw [if_neg h1, if_neg h2, if_neg h3, if_neg h4, if_neg h5, if_neg h6, if_neg h7,
    if_neg h8, if_neg h9, if_neg h10, if_neg h11, if_neg h12, if_neg h13, if_neg h14,
    if_neg h15, if_neg h16]

theorem parse_sku_element_ok_preserves (sku : SKU) (e : List Char) (s : SKU)
    (h : parse_sku_element sku e = .ok s) :
    s.defindex = sku.defindex ∧ s.quality = sku.quality := by
  unfold parse_sku_element dispatchName at h
  by_cases h1 : (split_name_value e).1 = chars "u"
  · rw [if_pos h1] at h
    generalize parse_u32 "particle" (split_name_value e).2 = r at h
    cases r with
    | ok n =>
      injection h with h
      subst h
      exact ⟨rfl, rfl⟩
    | error err => exact Except.noConfusion h
  rw [if_neg h1] at h
  by_cases h2 : (split_name_value e).1 = chars "w"
  · rw [if_pos h2] at h
    generalize parse_enum_u32 wearCodes "wear" (split_name_value e).2 = r at h
    cases r with
    | ok n =>
      injection h with h
      subst h
      exact ⟨rfl, rfl⟩
    | error err => exact Except.noConfusion h
  rw [if_neg h2] at h
  by_cases h3 : (split_name_value e).1 = chars "n"
  · rw [if_pos h3] at h
    generalize parse_u32 "craft number" (split_name_value e).2 = r at h
    cases r with
    | ok n =>
      injection h with h
      subst h
      exact ⟨rfl, rfl⟩
    | error err => exact Except.noConfusion h
  rw [if_neg h3] at h
  by_cases h4 : (split_name_value e).1 = chars "c"
  · rw [if_pos h4] at h
    generalize parse_u32 "crate number" (split_name_value e).2 = r at h
    cases r with
    | ok n =>
      injection h with h
      subst h
      exact ⟨rfl, rfl⟩
    | error err => exact Except.noConfusion h
  rw [if_neg h4] at h
  by_cases h5 : (split_name_value e).1 = chars "p"
  · rw [if_pos h5] at h
    generalize parse_enum_u32 paintCodes "paint" (split_name_value e).2 = r at h
    cases r with
    | ok n =>
      injection h with h
      subst h
      exact ⟨rfl, rfl⟩
    | error err => exact Except.noConfusion h
  rw [if_neg h5] at h
  by_cases h6 : (split_name_value e).1 = chars "pk"
  · rw [if_pos h6] at h
    generalize parse_u32 "skin" (split_name_value e).2 = r at h
    cases r with
    | ok n =>
      injection h with h
      subst h
      exact ⟨rfl, rfl⟩
    | error err => exact Except.noConfusion h
  rw [if_neg h6] at h
  by_cases h7 : (split_name_value e).1 = chars "kt-"
  · rw [if_pos h7] at h
    generalize parse_enum_u32 killstreakTierCodes "killstreak tier" (split_name_value e).2 = r at h
    cases r with
    | ok n =>
      injection h with h
      subst h
      exact ⟨rfl, rfl⟩
    | error err => exact Except.noConfusion h
  rw [if_neg h7] at h
  by_cases h8 : (split_name_value e).1 = chars "td-"
  · rw [if_pos h8] at h
    generalize parse_u32 "target defindex" (split_name_value e).2 = r at h
    cases r with
    | ok n =>
      injection h with h
      subst h
      exact ⟨rfl, rfl⟩
    | error err => exact Except.noConfusion h
  rw [if_neg h8] at h
  by_cases h9 : (split_name_value e).1 = chars "od-"
  · rw [if_pos h9] at h
    generalize parse_u32 "output defindex" (split_name_value e).2 = r at h
    cases r with
    | ok n =>
      injection h with h
      subst h
      exact ⟨rfl, rfl⟩
    | error err => exact Except.noConfusion h
  rw [if_neg h9] at h
  by_cases h10 : (split_name_value e).1 = chars "oq-"
  · rw [if_pos h10] at h
    generalize parse_enum_u32 qualityCodes "output quality" (split_name_value e).2 = r at h
    cases r with
    | ok n =>
      injection h with h
      subst h
      exact ⟨rfl, rfl⟩
    | error err => exact Except.noConfusion h
  rw [if_neg h10] at h
  by_cases h11 : (split_name_value e).1 = chars "ks-"
  · rw [if_pos h11] at h
    generalize parse_enum_u32 sheenCodes "sheen" (split_name_value e).2 = r at h
    cases r with
    | ok n =>
      injection h with h
      subst h
      exact ⟨rfl, rfl⟩
    | error err => exact Except.noConfusion h
  rw [if_neg h11] at h
  by_cases h12 : (split_name_value e).1 = chars "ke-"
  · rw [if_pos h12] at h
    generalize parse_enum_u32 killstreakerCodes "killstreaker" (split_name_value e).2 = r at h
    cases r with
    | ok n =>
      injection h with h
      subst h
      exact ⟨rfl, rfl⟩
    | error err => exact Except.noConfusion h
  rw [if_neg h12] at h
  by_cases h13 : (split_name_value e).1 = chars "uncraftable"
  · rw [if_pos h13] at h
    injection h with h
    subst h
    exact ⟨rfl, rfl⟩
  rw [if_neg h13] at h
  by_cases h14 : (split_name_value e).1 = chars "australium"
  · rw [if_pos h14] at h
    injection h with h
    subst h
    exact ⟨rfl, rfl⟩
  rw [if_neg h14] at h
  by_cases h15 : (split_name_value e).1 = chars "strange"
  · rw [if_pos h15] at h
    injection h with h
    subst h
    exact ⟨rfl, rfl⟩
  rw [if_neg h15] at h
  by_cases h16 : (split_name_value e).1 = chars "festive"
  · rw [if_pos h16] at h
    injection h with h
    subst h
    exact ⟨rfl, rfl⟩
  rw [if_neg h16] at h
  injection h with h
  subst h
  exact ⟨rfl, rfl⟩

theorem applyLossy_preserves (sku : SKU) (e : List Char) :
    (applyLossy sku e).defindex = sku.defindex ∧ (applyLossy sku e).quality = sku.quality := by
  unfold applyLossy
  cases hh : parse_sku_element sku e with
  | ok s => exact parse_sku_element_ok_preserves sku e s hh
  | error err => exact ⟨rfl, rfl⟩

theorem foldl_applyLossy_preserves (l : List (List Char)) : ∀ sku : SKU,
    (l.foldl applyLossy sku).defindex = sku.defindex ∧
      (l.foldl applyLossy sku).quality = sku.quality := by
  induction l with
  | nil => intro sku; exact ⟨rfl, rfl⟩
  | cons t ts ih =>
    intro sku
    rw [List.foldl_cons]
    have h1 := applyLossy_preserves sku t
    have h2 := ih (applyLossy sku t)
    exact ⟨h1.1 ▸ h2.1, h1.2 ▸ h2.2⟩

theorem processTokens_append (xs : List (List Char)) : ∀ (ys : List (List Char)) (sku : SKU),
    processTokens sku (xs ++ ys) =
      match processTokens sku xs with
      | .ok s => processTokens s ys
      | .error e => .error e := by
  induction xs with
  | nil => intro ys sku; rfl
  | cons t ts ih =>
    intro ys sku
    simp only [List.cons_append, processTokens]
    cases ht : parse_sku_element sku t with
    | ok s => exact ih ys s
    | error e => rfl

theorem foldl_applyLossy_of_ok (l : List (List Char)) : ∀ (sku r : SKU),
    processTokens sku l = .ok r → l.foldl applyLossy sku = r := by
  induction l with
  | nil =>
    intro sku r h
    rw [processTokens] at h
    exact Except.ok.inj h
  | cons t ts ih =>
    intro sku r h
    rw [processTokens] at h
    cases ht : parse_sku_element sku t with
    | ok s =>
      rw [ht] at h
      rw [List.foldl_cons]
      have happ : applyLossy sku t = s := by
        unfold applyLossy
        rw [ht]
      rw [happ]
      exact ih s r h
    | error e =>
      rw [ht] at h
      exact Except.noConfusion h

/-! Decomposition of the formatter output into delimiter-joined segments. -/

theorem app1_join (s : List Char) (o : Option Nat) (f : Nat → List Char) :
    app1 s o f = s ++ segsJoin (pOpt o f) := by
  cases o with
  | none => simp [app1, pOpt, segsJoin]
  | some v => simp [app1, pOpt, segsJoin]

theorem appFlag_join (s : List Char) (b : Bool) (seg : List Char) :
    appFlag s b seg = s ++ segsJoin (pFlag b seg) := by
  cases b <;> simp [appFlag, pFlag, segsJoin]

theorem segsJoin_append (xs ys : List (List Char)) :
    segsJoin (xs ++ ys) = segsJoin xs ++ segsJoin ys := by
  induction xs with
  | nil => simp [segsJoin]
  | cons x xt ih => simp [segsJoin, ih]

theorem to_sku_string_decomp (r : SKU) :
    r.to_sku_string =
      (intChars r.defindex ++ ';' :: natChars r.quality) ++ segsJoin (fmtSegs r) := by
  unfold SKU.to_sku_string fmtSegs
  simp only [app1_join, appFlag_join, segsJoin_append, List.append_assoc]

theorem mem_pOpt {seg : List Char} {o : Option Nat} {f : Nat → List Char}
    (h : seg ∈ pOpt o f) : ∃ v, o = some v ∧ seg = f v := by
  cases o with
  | none => simp [pOpt] at h
  | some v =>
    simp [pOpt] at h
    exact ⟨v, rfl, h⟩

theorem mem_pFlag {seg s' : List Char} {b : Bool} (h : seg ∈ pFlag b s') : seg = s' := by
  cases b with
  | false => simp [pFlag] at h
  | true =>
    simp [pFlag] at h
    exact h

theorem no_semi_append (a b : List Char) (ha : ';' ∉ a) (hb : ';' ∉ b) : ';' ∉ a ++ b := by
  intro hm
  rcases List.mem_append.mp hm with h | h
  · exact ha h
  · exact hb h

theorem no_semi_fmtSegs (r : SKU) : ∀ seg ∈ fmtSegs r, ';' ∉ seg := by
  intro seg hseg
  rw [fmtSegs] at hseg
  simp only [List.mem_append] at hseg
  rcases hseg with (((((((((((((((h|h)|h)|h)|h)|h)|h)|h)|h)|h)|h)|h)|h)|h)|h)|h)
  · obtain ⟨v, _, rfl⟩ := mem_pOpt h
    exact no_semi_append ['u'] (natChars v) (by decide) (no_semi_natChars v)
  · rw [mem_pFlag h]
    decide
  · rw [mem_pFlag h]
    decide
  · rw [mem_pFlag h]
    decide
  · obtain ⟨v, _, rfl⟩ := mem_pOpt h
    exact no_semi_append ['w'] (natChars v) (by decide) (no_semi_natChars v)
  · obtain ⟨v, _, rfl⟩ := mem_pOpt h
    exact no_semi_append ['p', 'k'] (natChars v) (by decide) (no_semi_natChars v)
  · obtain ⟨v, _, rfl⟩ := mem_pOpt h
    exact no_semi_append (chars "kt-") (natChars v) (by decide) (no_semi_natChars v)
  · rw [mem_pFlag h]
    decide
  · obtain ⟨v, _, rfl⟩ := mem_pOpt h
    exact no_semi_append ['c'] (natChars v) (by decide) (no_semi_natChars v)
  · obtain ⟨v, _, rfl⟩ := mem_pOpt h
    exact no_semi_append ['n'] (natChars v) (by decide) (no_semi_natChars v)
  · obtain ⟨v, _, rfl⟩ := mem_pOpt h
    exact no_semi_append (chars "td-") (natChars v) (by decide) (no_semi_natChars v)
  · obtain ⟨v, _, rfl⟩ := mem_pOpt h
    exact no_semi_append (chars "od-") (natChars v) (by decide) (no_semi_natChars v)
  · obtain ⟨v, _, rfl⟩ := mem_pOpt h
    exact no_semi_append (chars "oq-") (natChars v) (by decide) (no_semi_natChars v)
  · obtain ⟨v, _, rfl⟩ := mem_pOpt h
    exact no_semi_append ['p'] (natChars v) (by decide) (no_semi_natChars v)
  · obtain ⟨v, _, rfl⟩ := mem_pOpt h
    exact no_semi_append (chars "ks-") (natChars v) (by decide) (no_semi_natChars v)
  · obtain ⟨v, _, rfl⟩ := mem_pOpt h
    exact no_semi_append (chars "ke-") (natChars v) (by decide) (no_semi_natChars v)

theorem tokenize_to_sku_string (r : SKU) :
    tokenize r.to_sku_string = intChars r.defindex :: natChars r.quality :: fmtSegs r := by
  rw [to_sku_string_decomp, List.append_assoc, List.cons_append,
    tokenize_append_semi (natChars r.quality ++ segsJoin (fmtSegs r)) (no_semi_intChars r.defindex),
    tokenize_join (fmtSegs r) (no_semi_natChars r.quality) (no_semi_fmtSegs r)]

/-! Processing of each optional formatter segment by the strict token loop. -/

theorem contains_lt_of_all (codes : List Nat) (bound : Nat)
    (hall : codes.all (fun x => decide (x < bound)) = true) (n : Nat)
    (h : codes.contains n = true) : n < bound := by
  have hm : n ∈ codes := by simpa using h
  rw [List.all_eq_true] at hall
  simpa using hall n hm

theorem procSegs_particle (sku : SKU) (o : Option Nat)
    (ho : inOpt o (fun v => decide (v < 4294967296)) = true) (hcur : sku.particle = none) :
    processTokens sku (pOpt o (fun p => 'u' :: natChars p)) = .ok { sku with particle := o } := by
  cases o with
  | none =>
    show Except.ok sku = Except.ok { sku with particle := none }
    rw [← hcur]
  | some v =>
    have hv : v < 4294967296 := by simpa [inOpt] using ho
    show (match parse_sku_element sku ('u' :: natChars v) with
          | .ok sku' => processTokens sku' []
          | .error e => .error e) = Except.ok { sku with particle := some v }
    rw [parse_sku_element_u sku v hv]
    rfl

theorem procSegs_wear (sku : SKU) (o : Option Nat)
    (ho : inOpt o wearCodes.contains = true) (hcur : sku.wear = none) :
    processTokens sku (pOpt o (fun c => 'w' :: natChars c)) = .ok { sku with wear := o } := by
  cases o with
  | none =>
    show Except.ok sku = Except.ok { sku with wear := none }
    rw [← hcur]
  | some v =>
    have hmem : wearCodes.contains v = true := by simpa [inOpt] using ho
    have hv : v < 4294967296 := contains_lt_of_all wearCodes 4294967296 (by decide) v hmem
    show (match parse_sku_element sku ('w' :: natChars v) with
          | .ok sku' => processTokens sku' []
          | .error e => .error e) = Except.ok { sku with wear := some v }
    rw [parse_sku_element_w sku v hmem hv]
    rfl

theorem procSegs_skin (sku : SKU) (o : Option Nat)
    (ho : inOpt o (fun v => decide (v < 4294967296)) = true) (hcur : sku.skin = none) :
    processTokens sku (pOpt o (fun v => 'p' :: 'k' :: natChars v)) = .ok { sku with skin := o } := by
  cases o with
  | none =>
    show Except.ok sku = Except.ok { sku with skin := none }
    rw [← hcur]
  | some v =>
    have hv : v < 4294967296 := by simpa [inOpt] using ho
    show (match parse_sku_element sku ('p' :: 'k' :: natChars v) with
          | .ok sku' => processTokens sku' []
          | .error e => .error e) = Except.ok { sku with skin := some v }
    rw [parse_sku_element_pk sku v hv]
    rfl

theorem procSegs_kt (sku : SKU) (o : Option Nat)
    (ho : inOpt o killstreakTierCodes.contains = true) (hcur : sku.killstreak_tier = none) :
    processTokens sku (pOpt o (fun c => chars "kt-" ++ natChars c)) = .ok { sku with killstreak_tier := o } := by
  cases o with
  | none =>
    show Except.ok sku = Except.ok { sku with killstreak_tier := none }
    rw [← hcur]
  | some v =>
    have hmem : killstreakTierCodes.contains v = true := by simpa [inOpt] using ho
    have hv : v < 4294967296 := contains_lt_of_all killstreakTierCodes 4294967296 (by decide) v hmem
    show (match parse_sku_element sku (chars "kt-" ++ natChars v) with
          | .ok sku' => processTokens sku' []
          | .error e => .error e) = Except.ok { sku with killstreak_tier := some v }
    rw [parse_sku_element_kt sku v hmem hv]
    rfl

theorem procSegs_crate (sku : SKU) (o : Option Nat)
    (ho : inOpt o (fun v => decide (v < 4294967296)) = true) (hcur : sku.crate_number = none) :
    processTokens sku (pOpt o (fun v => 'c' :: natChars v)) = .ok { sku with crate_number := o } := by
  cases o with
  | none =>
    show Except.ok sku = Except.ok { sku with crate_number := none }
    rw [← hcur]
  | some v =>
    have hv : v < 4294967296 := by simpa [inOpt] using ho
    show (match parse_sku_element sku ('c' :: natChars v) with
          | .ok sku' => processTokens sku' []
          | .error e => .error e) = Except.ok { sku with crate_number := some v }
    rw [parse_sku_element_c sku v hv]
    rfl

theorem procSegs_craft (sku : SKU) (o : Option Nat)
    (ho : inOpt o (fun v => decide (v < 4294967296)) = true) (hcur : sku.craft_number = none) :
    processTokens sku (pOpt o (fun v => 'n' :: natChars v)) = .ok { sku with craft_number := o } := by
  cases o with
  | none =>
    show Except.ok sku = Except.ok { sku with craft_number := none }
    rw [← hcur]
  | some v =>
    have hv : v < 4294967296 := by simpa [inOpt] using ho
    show (match parse_sku_element sku ('n' :: natChars v) with
          | .ok sku' => processTokens sku' []
          | .error e => .error e) = Except.ok { sku with craft_number := some v }
    rw [parse_sku_element_n sku v hv]
    rfl

theorem procSegs_td (sku : SKU) (o : Option Nat)
    (ho : inOpt o (fun v => decide (v < 4294967296)) = true) (hcur : sku.target_defindex = none) :
    processTokens sku (pOpt o (fun v => chars "td-" ++ natChars v)) = .ok { sku with target_defindex := o } := by
  cases o with
  | none =>
    show Except.ok sku = Except.ok { sku with target_defindex := none }
    rw [← hcur]
  | some v =>
    have hv : v < 4294967296 := by simpa [inOpt] using ho
    show (match parse_sku_element sku (chars "td-" ++ natChars v) with
          | .ok sku' => processTokens sku' []
          | .error e => .error e) = Except.ok { sku with target_defindex := some v }
    rw [parse_sku_element_td sku v hv]
    rfl

theorem procSegs_od (sku : SKU) (o : Option Nat)
    (ho : inOpt o (fun v => decide (v < 4294967296)) = true) (hcur : sku.output_defindex = none) :
    processTokens sku (pOpt o (fun v => chars "od-" ++ natChars v)) = .ok { sku with output_defindex := o } := by
  cases o with
  | none =>
    show Except.ok sku = Except.ok { sku with output_defindex := none }
    rw [← hcur]
  | some v =>
    have hv : v < 4294967296 := by simpa [inOpt] using ho
    show (match parse_sku_element sku (chars "od-" ++ natChars v) with
          | .ok sku' => processTokens sku' []
          | .error e => .error e) = Except.ok { sku with output_defindex := some v }
    rw [parse_sku_element_od sku v hv]
    rfl

theorem procSegs_oq (sku : SKU) (o : Option Nat)
    (ho : inOpt o qualityCodes.contains = true) (hcur : sku.output_quality = none) :
    processTokens sku (pOpt o (fun c => chars "oq-" ++ natChars c)) = .ok { sku with output_quality := o } := by
  cases o with
  | none =>
    show Except.ok sku = Except.ok { sku with output_quality := none }
    rw [← hcur]
  | some v =>
    have hmem : qualityCodes.contains v = true := by simpa [inOpt] using ho
    have hv : v < 4294967296 := contains_lt_of_all qualityCodes 4294967296 (by decide) v hmem
    show (match parse_sku_element sku (chars "oq-" ++ natChars v) with
          | .ok sku' => processTokens sku' []
          | .error e => .error e) = Except.ok { sku with output_quality := some v }
    rw [parse_sku_element_oq sku v hmem hv]
    rfl

theorem procSegs_paint (sku : SKU) (o : Option Nat)
    (ho : inOpt o paintCodes.contains = true) (hcur : sku.paint = none) :
    processTokens sku (pOpt o (fun c => 'p' :: natChars c)) = .ok { sku with paint := o } := by
  cases o with
  | none =>
    show Except.ok sku = Except.ok { sku with paint := none }
    rw [← hcur]
  | some v =>
    have hmem : paintCodes.contains v = true := by simpa [inOpt] using ho
    have hv : v < 4294967296 := contains_lt_of_all paintCodes 4294967296 (by decide) v hmem
    show (match parse_sku_element sku ('p' :: natChars v) with
          | .ok sku' => processTokens sku' []
          | .error e => .error e) = Except.ok { sku with paint := some v }
    rw [parse_sku_element_p sku v hmem hv]
    rfl

theorem procSegs_sheen (sku : SKU) (o : Option Nat)
    (ho : inOpt o sheenCodes.contains = true) (hcur : sku.sheen = none) :
    processTokens sku (pOpt o (fun c => chars "ks-" ++ natChars c)) = .ok { sku with sheen := o } := by
  cases o with
  | none =>
    show Except.ok sku = Except.ok { sku with sheen := none }
    rw [← hcur]
  | some v =>
    have hmem : sheenCodes.contains v = true := by simpa [inOpt] using ho
    have hv : v < 4294967296 := contains_lt_of_all sheenCodes 4294967296 (by decide) v hmem
    show (match parse_sku_element sku (chars "ks-" ++ natChars v) with
          | .ok sku' => processTokens sku' []
          | .error e => .error e) = Except.ok { sku with sheen := some v }
    rw [parse_sku_element_ks sku v hmem hv]
    rfl

theorem procSegs_ke (sku : SKU) (o : Option Nat)
    (ho : inOpt o killstreakerCodes.contains = true) (hcur : sku.killstreaker = none) :
    processTokens sku (pOpt o (fun c => chars "ke-" ++ natChars c)) = .ok { sku with killstreaker := o } := by
  cases o with
  | none =>
    show Except.ok sku = Except.ok { sku with killstreaker := none }
    rw [← hcur]
  | some v =>
    have hmem : killstreakerCodes.contains v = true := by simpa [inOpt] using ho
    have hv : v < 4294967296 := contains_lt_of_all killstreakerCodes 4294967296 (by decide) v hmem
    show (match parse_sku_element sku (chars "ke-" ++ natChars v) with
          | .ok sku' => processTokens sku' []
          | .error e => .error e) = Except.ok { sku with killstreaker := some v }
    rw [parse_sku_element_ke sku v hmem hv]
    rfl

theorem procSegs_uncraftable (sku : SKU) (b : Bool) (hcur : sku.craftable = true) :
    processTokens sku (pFlag (!b) (chars "uncraftable")) = .ok { sku with craftable := b } := by
  cases b with
  | true =>
    show Except.ok sku = Except.ok { sku with craftable := true }
    rw [← hcur]
  | false =>
    show (match parse_sku_element sku (chars "uncraftable") with
          | .ok sku' => processTokens sku' []
          | .error e => .error e) = Except.ok { sku with craftable := false }
    rw [show parse_sku_element sku (chars "uncraftable") = Except.ok { sku with craftable := false }
        from parse_sku_element_uncraftable sku [] rfl]
    rfl

theorem procSegs_australium (sku : SKU) (b : Bool) (hcur : sku.australium = false) :
    processTokens sku (pFlag b (chars "australium")) = .ok { sku with australium := b } := by
  cases b with
  | false =>
    show Except.ok sku = Except.ok { sku with australium := false }
    rw [← hcur]
  | true =>
    show (match parse_sku_element sku (chars "australium") with
          | .ok sku' => processTokens sku' []
          | .error e => .error e) = Except.ok { sku with australium := true }
    rw [show parse_sku_element sku (chars "australium") = Except.ok { sku with australium := true }
        from parse_sku_element_australium sku [] rfl]
    rfl

theorem procSegs_strange (sku : SKU) (b : Bool) (hcur : sku.strange = false) :
    processTokens sku (pFlag b (chars "strange")) = .ok { sku with strange := b } := by
  cases b with
  | false =>
    show Except.ok sku = Except.ok { sku with strange := false }
    rw [← hcur]
  | true =>
    show (match parse_sku_element sku (chars "strange") with
          | .ok sku' => processTokens sku' []
          | .error e => .error e) = Except.ok { sku with strange := true }
    rw [show parse_sku_element sku (chars "strange") = Except.ok { sku with strange := true }
        from parse_sku_element_strange sku [] rfl]
    rfl

theorem procSegs_festive (sku : SKU) (b : Bool) (hcur : sku.festivized = false) :
    processTokens sku (pFlag b (chars "festive")) = .ok { sku with festivized := b } := by
  cases b with
  | false =>
    show Except.ok sku = Except.ok { sku with festivized := false }
    rw [← hcur]
  | true =>
    show (match parse_sku_element sku (chars "festive") with
          | .ok sku' => processTokens sku' []
          | .error e => .error e) = Except.ok { sku with festivized := true }
    rw [show parse_sku_element sku (chars "festive") = Except.ok { sku with festivized := true }
        from parse_sku_element_festive sku [] rfl]
    rfl

/-! Round trip of the strict decoder over the formatter. -/

theorem processTokens_fmtSegs (r : SKU) (h : validSKU r = true) :
    processTokens (SKU.new r.defindex r.quality) (fmtSegs r) = .ok r := by
  obtain ⟨dfx, qual, cr, au, st, fe, pa, sk, kt, wr, td, od, oq, cn, crn, pt, sh, ke⟩ := r
  simp only [validSKU, Bool.and_eq_true] at h
  obtain ⟨⟨⟨⟨⟨⟨⟨⟨⟨⟨⟨⟨⟨⟨h1, h2⟩, h3⟩, h4⟩, h5⟩, h6⟩, h7⟩, h8⟩, h9⟩, h10⟩, h11⟩, h12⟩, h13⟩, h14⟩, h15⟩ := h
  simp only [fmtSegs, processTokens_append,
    procSegs_particle, procSegs_uncraftable, procSegs_australium, procSegs_strange,
    procSegs_wear, procSegs_skin, procSegs_kt, procSegs_festive,
    procSegs_crate, procSegs_craft, procSegs_td, procSegs_od, procSegs_oq,
    procSegs_paint, procSegs_sheen, procSegs_ke,
    h4, h5, h6, h7, h8, h9, h10, h11, h12, h13, h14, h15,
    SKU.new, SKU.default]

theorem try_from_format (r : SKU) (h : validSKU r = true) :
    SKU.try_from r.to_sku_string = .ok r := by
  have hPT := processTokens_fmtSegs r h
  have hflat := h
  simp only [validSKU, Bool.and_eq_true] at hflat
  obtain ⟨⟨⟨⟨⟨⟨⟨⟨⟨⟨⟨⟨⟨⟨h1, h2⟩, h3⟩, _⟩, _⟩, _⟩, _⟩, _⟩, _⟩, _⟩, _⟩, _⟩, _⟩, _⟩, _⟩ := hflat
  have hlo : -2147483648 ≤ r.defindex := by simpa using h1
  have hhi : r.defindex < 2147483648 := by simpa using h2
  have hqlt : r.quality < 4294967296 :=
    contains_lt_of_all qualityCodes 4294967296 (by decide) r.quality h3
  simp only [SKU.try_from, tokenize_to_sku_string r, parseI32Raw_intChars hlo hhi,
    parse_enum_u32_natChars qualityCodes "quality" h3 hqlt]
  exact hPT

/-! Agreement of the lossy decoder with the strict decoder on accepted inputs. -/

theorem from_str_of_try_from_ok (s : List Char) (r : SKU) (h : SKU.try_from s = .ok r) :
    SKU.from_str s = r := by
  unfold SKU.try_from at h
  cases htk : tokenize s with
  | nil =>
    rw [htk] at h
    exact Except.noConfusion h
  | cons d ts =>
    cases ts with
    | nil =>
      rw [htk] at h
      exact Except.noConfusion h
    | cons q rest =>
      rw [htk] at h
      change (match parseI32Raw d with
        | Except.error k => Except.error (ParseError.parseInt "defindex" k)
        | Except.ok defindex =>
          match parse_enum_u32 qualityCodes "quality" q with
          | Except.error e => Except.error e
          | Except.ok quality => processTokens (SKU.new defindex quality) rest) =
            Except.ok r at h
      generalize hd : parseI32Raw d = rd at h
      cases rd with
      | error k => exact Except.noConfusion h
      | ok dv =>
        generalize hq : parse_enum_u32 qualityCodes "quality" q = rq at h
        cases rq with
        | error e => exact Except.noConfusion h
        | ok qv =>
          simp only [SKU.from_str]
          rw [htk]
          simp only [List.getD_cons_zero, List.getD_cons_succ, List.drop_succ_cons,
            List.drop_zero]
          rw [hd, hq]
          exact foldl_applyLossy_of_ok rest (SKU.new dv qv) r h

/-! Sentinel behaviour of the lossy decoder. -/

theorem from_str_defindex_sentinel (s : List Char) (k : IntErrorKind)
    (h : parseI32Raw ((tokenize s).getD 0 []) = .error k) :
    (SKU.from_str s).defindex = -1 := by
  simp only [SKU.from_str]
  rw [h]
  have hbase : (applyLossy { SKU.default with defindex := -1 } ((tokenize s).getD 0 [])).defindex
      = ({ SKU.default with defindex := -1 } : SKU).defindex :=
    (applyLossy_preserves _ _).1
  generalize parse_enum_u32 qualityCodes "quality" ((tokenize s).getD 1 []) = rq
  cases rq with
  | ok qv =>
    rw [(foldl_applyLossy_preserves _ _).1]
    exact hbase
  | error e =>
    rw [(foldl_applyLossy_preserves _ _).1, (applyLossy_preserves _ _).1]
    exact hbase

theorem from_str_quality_sentinel (s : List Char) (e : ParseError)
    (h : parse_enum_u32 qualityCodes "quality" ((tokenize s).getD 1 []) = .error e) :
    (SKU.from_str s).quality = qualityRarity2 := by
  simp only [SKU.from_str]
  rw [h]
  rw [(foldl_applyLossy_preserves _ _).2, (applyLossy_preserves _ _).2]

/-! Syntactic characterization of the defindex token parser. -/

theorem parseI32Raw_isOk (s : List Char) : isOkB (parseI32Raw s) = i32TokenOk s := by
  have hmap : ∀ (x : Except IntErrorKind Nat) (f : Nat → Int),
      isOkB (match x with
        | .ok n => (Except.ok (f n) : Except IntErrorKind Int)
        | .error k => .error k) = isOkB x := by
    intro x f
    cases x <;> rfl
  cases s with
  | nil => rfl
  | cons c rest =>
    by_cases hp : c = '+'
    · subst hp
      cases rest with
      | nil => rfl
      | cons c2 r2 =>
        show isOkB (match digitsLoop .posOverflow 2147483648 0 (c2 :: r2) with
            | .ok n => (Except.ok (Int.ofNat n) : Except IntErrorKind Int)
            | .error k => .error k) =
          (!(c2 :: r2).isEmpty && (c2 :: r2).all Char.isDigit &&
            decide (digitsVal (c2 :: r2) < 2147483648))
        rw [hmap, digitsLoop_isOk .posOverflow 2147483648 (c2 :: r2) 0 (by omega)]
        simp [digitsVal]
    · by_cases hm : c = '-'
      · subst hm
        cases rest with
        | nil => rfl
        | cons c2 r2 =>
          show isOkB (match digitsLoop .negOverflow 2147483649 0 (c2 :: r2) with
              | .ok n => (Except.ok (-(n : Int)) : Except IntErrorKind Int)
              | .error k => .error k) =
            (!(c2 :: r2).isEmpty && (c2 :: r2).all Char.isDigit &&
              decide (digitsVal (c2 :: r2) < 2147483649))
          rw [hmap, digitsLoop_isOk .negOverflow 2147483649 (c2 :: r2) 0 (by omega)]
          simp [digitsVal]
      · show isOkB (if c = '+' then
            if rest = [] then (Except.error .invalidDigit : Except IntErrorKind Int)
            else match digitsLoop .posOverflow 2147483648 0 rest with
              | .ok n => .ok (Int.ofNat n)
              | .error k => .error k
          else if c = '-' then
            if rest = [] then .error .invalidDigit
            else match digitsLoop .negOverflow 2147483649 0 rest with
              | .ok n => .ok (-(n : Int))
              | .error k => .error k
          else match digitsLoop .posOverflow 2147483648 0 (c :: rest) with
              | .ok n => .ok (Int.ofNat n)
              | .error k => .error k) =
          (if c = '+' then
            !rest.isEmpty && rest.all Char.isDigit && decide (digitsVal rest < 2147483648)
          else if c = '-' then
            !rest.isEmpty && rest.all Char.isDigit && decide (digitsVal rest < 2147483649)
          else (c :: rest).all Char.isDigit && decide (digitsVal (c :: rest) < 2147483648))
        simp only [if_neg hp, if_neg hm]
        rw [hmap, digitsLoop_isOk .posOverflow 2147483648 (c :: rest) 0 (by omega)]
        rfl

/-! Byte-level safety of the trailing-digit scan. -/

theorem byteLen_append (a b : List Char) : byteLen (a ++ b) = byteLen a + byteLen b := by
  simp [byteLen, List.map_append, List.sum_append]

theorem utf8Len_digit {c : Char} (h : c.isDigit = true) : utf8Len c = 1 := by
  have := toNat_lt_of_isDigit h
  rw [utf8Len, if_pos (by omega)]

theorem byteLen_digits {l : List Char} (h : l.all Char.isDigit = true) : byteLen l = l.length := by
  induction l with
  | nil => rfl
  | cons c cs ih =>
    rw [List.all_cons, Bool.and_eq_true] at h
    show ((c :: cs).map utf8Len).sum = (c :: cs).length
    rw [List.map_cons, List.sum_cons, utf8Len_digit h.1]
    have hcs : byteLen cs = cs.length := ih h.2
    rw [byteLen] at hcs
    rw [hcs, List.length_cons]
    omega

theorem split_name_boundary (e : List Char) :
    byteLen (split_name_value e).1 + trailingDigitCount e = byteLen e := by
  have hv : (split_name_value e).2.all Char.isDigit = true := split_name_value_digits e
  have hlen : (split_name_value e).2.length = trailingDigitCount e := by
    show (e.reverse.takeWhile Char.isDigit).reverse.length = _
    rw [List.length_reverse]
    rfl
  calc byteLen (split_name_value e).1 + trailingDigitCount e
      = byteLen (split_name_value e).1 + byteLen (split_name_value e).2 := by
        rw [byteLen_digits hv, hlen]
    _ = byteLen ((split_name_value e).1 ++ (split_name_value e).2) := (byteLen_append _ _).symm
    _ = byteLen e := by rw [split_name_value_recombine]

theorem parse_sku_element_nonascii (sku : SKU) (e : List Char) (c : Char)
    (hc : c ∈ e) (hascii : 128 ≤ c.toNat) : parse_sku_element sku e = .ok sku := by
  apply parse_sku_element_unknown
  intro hmem
  have hrec := split_name_value_recombine e
  have hcsplit : c ∈ (split_name_value e).1 ++ (split_name_value e).2 := by
    rw [hrec]
    exact hc
  have hcname : c ∈ (split_name_value e).1 := by
    rcases List.mem_append.mp hcsplit with h | h
    · exact h
    · have hdig := split_name_value_digits e
      rw [List.all_eq_true] at hdig
      have := toNat_lt_of_isDigit (hdig c h)
      omega
  have hall : ∀ nm ∈ knownNames, nm.all (fun ch => decide (ch.toNat < 128)) = true := by decide
  have hnm := hall _ hmem
  rw [List.all_eq_true] at hnm
  have := hnm c hcname
  simp at this
  omega

/-! Claim theorems. -/

/-- C1: for every record obtained by strict decoding of a canonical string (the
formatter's output for some Rust-typed record, captured by `validSKU`),
formatting the decoded record reproduces the original string exactly. -/
theorem sku_strict_roundtrip (r₀ r : SKU) (h₀ : validSKU r₀ = true)
    (h : SKU.try_from r₀.to_sku_string = .ok r) :
    r.to_sku_string = r₀.to_sku_string := by
  have hfmt := try_from_format r₀ h₀
  rw [hfmt] at h
  rw [← Except.ok.inj h]

theorem sku_strict_roundtrip_spot :
    validSKU { SKU.new 424 15 with particle := some 703, wear := some 3, skin := some 307, killstreak_tier := some 3, sheen := some 1, killstreaker := some 2008 } = true ∧
    SKU.to_sku_string { SKU.new 424 15 with particle := some 703, wear := some 3, skin := some 307, killstreak_tier := some 3, sheen := some 1, killstreaker := some 2008 } =
      chars "424;15;u703;w3;pk307;kt-3;ks-1;ke-2008" ∧
    SKU.try_from (SKU.to_sku_string { SKU.new 424 15 with particle := some 703, wear := some 3, skin := some 307, killstreak_tier := some 3, sheen := some 1, killstreaker := some 2008 }) =
      .ok { SKU.new 424 15 with particle := some 703, wear := some 3, skin := some 307, killstreak_tier := some 3, sheen := some 1, killstreaker := some 2008 } ∧
    SKU.to_sku_string { SKU.new 424 15 with particle := some 703, wear := some 3, skin := some 307, killstreak_tier := some 3, sheen := some 1, killstreaker := some 2008 } =
      SKU.to_sku_string { SKU.new 424 15 with particle := some 703, wear := some 3, skin := some 307, killstreak_tier := some 3, sheen := some 1, killstreaker := some 2008 } :=
  ⟨by decide, by decide, by decide,
   sku_strict_roundtrip
     { SKU.new 424 15 with particle := some 703, wear := some 3, skin := some 307, killstreak_tier := some 3, sheen := some 1, killstreaker := some 2008 }
     { SKU.new 424 15 with particle := some 703, wear := some 3, skin := some 307, killstreak_tier := some 3, sheen := some 1, killstreaker := some 2008 }
     (by decide) (by decide)⟩

/-- C2: the formatter is total by construction and produces the defindex and
quality code followed by exactly the optional segments of `fmtSegs`, in the
fixed source order, one segment per present field; records with equal
attribute sets format to identical character sequences. -/
theorem sku_format_canonical_order :
    (∀ r : SKU,
      tokenize r.to_sku_string = intChars r.defindex :: natChars r.quality :: fmtSegs r) ∧
    (∀ r₁ r₂ : SKU,
      r₁.defindex = r₂.defindex ∧ r₁.quality = r₂.quality ∧ r₁.craftable = r₂.craftable ∧
      r₁.australium = r₂.australium ∧ r₁.strange = r₂.strange ∧
      r₁.festivized = r₂.festivized ∧ r₁.particle = r₂.particle ∧ r₁.skin = r₂.skin ∧
      r₁.killstreak_tier = r₂.killstreak_tier ∧ r₁.wear = r₂.wear ∧
      r₁.target_defindex = r₂.target_defindex ∧ r₁.output_defindex = r₂.output_defindex ∧
      r₁.output_quality = r₂.output_quality ∧ r₁.craft_number = r₂.craft_number ∧
      r₁.crate_number = r₂.crate_number ∧ r₁.paint = r₂.paint ∧ r₁.sheen = r₂.sheen ∧
      r₁.killstreaker = r₂.killstreaker →
      r₁.to_sku_string = r₂.to_sku_string) := by
  refine ⟨tokenize_to_sku_string, ?_⟩
  intro r₁ r₂ h
  have heq : r₁ = r₂ := by
    cases r₁
    cases r₂
    simp_all
  rw [heq]

theorem sku_format_canonical_order_spot :
    tokenize (SKU.new 1 5).to_sku_string =
      intChars (SKU.new 1 5).defindex :: natChars (SKU.new 1 5).quality ::
        fmtSegs (SKU.new 1 5) ∧
    SKU.to_sku_string { SKU.new 1 5 with strange := true } =
      SKU.to_sku_string { SKU.default with defindex := 1, quality := 5, strange := true } :=
  ⟨sku_format_canonical_order.1 (SKU.new 1 5),
   sku_format_canonical_order.2 { SKU.new 1 5 with strange := true }
     { SKU.default with defindex := 1, quality := 5, strange := true } (by decide)⟩

/-- C3: lossy decoding is total by construction; an unparseable defindex token
forces the sentinel `-1`, an unparseable quality token forces the sentinel
quality `Rarity2`, dispatcher failures are silently discarded leaving the
record unchanged, and the misplaced tokens in position 0 and 1 are still run
through the element dispatcher (witnessed by the concrete decode, where the
token `u43` in position 0 populates the particle field). -/
theorem sku_from_str_total_sentinels :
    (∀ (s : List Char) (k : IntErrorKind),
        parseI32Raw ((tokenize s).getD 0 []) = .error k → (SKU.from_str s).defindex = -1) ∧
    (∀ (s : List Char) (e : ParseError),
        parse_enum_u32 qualityCodes "quality" ((tokenize s).getD 1 []) = .error e →
          (SKU.from_str s).quality = qualityRarity2) ∧
    (∀ (sku : SKU) (t : List Char) (err : ParseError),
        parse_sku_element sku t = .error err → applyLossy sku t = sku) ∧
    SKU.from_str (chars "u43;;;pk1;kt-0") = { SKU.default with defindex := -1, quality := qualityRarity2, particle := some 43, skin := some 1 } := by
  refine ⟨from_str_defindex_sentinel, from_str_quality_sentinel, ?_, by decide⟩
  intro sku t err h
  unfold applyLossy
  rw [h]

theorem sku_from_str_total_sentinels_spot :
    (SKU.from_str (chars "x;y")).defindex = -1 ∧
    (SKU.from_str (chars "x;y")).quality = qualityRarity2 ∧
    applyLossy (SKU.new 1 5) (chars "kt-0") = SKU.new 1 5 :=
  ⟨sku_from_str_total_sentinels.1 (chars "x;y") .invalidDigit (by decide),
   sku_from_str_total_sentinels.2.1 (chars "x;y") (.parseInt "quality" .invalidDigit) (by decide),
   sku_from_str_total_sentinels.2.2.1 (SKU.new 1 5) (chars "kt-0")
     (.invalidValue "killstreak tier" 0) (by decide)⟩

/-- C4: a token whose value parses as an integer but lies outside its enum
domain makes strict decoding fail with an invalid-value error carrying the
field key and the rejected code; in particular `1071;122` fails naming
"quality" and `122`; and the strict token loop returns the first error found
scanning left to right, never continuing past it. -/
theorem sku_strict_invalid_value_first_error :
    (∀ (codes : List Nat) (key : String) (s : List Char) (n : Nat),
        parseU32Raw s = .ok n → codes.contains n = false →
          parse_enum_u32 codes key s = .error (.invalidValue key n)) ∧
    SKU.try_from (chars "1071;122") = .error (.invalidValue "quality" 122) ∧
    (∀ (sku sku' : SKU) (l₁ l₂ : List (List Char)) (t : List Char) (e : ParseError),
        processTokens sku l₁ = .ok sku' → parse_sku_element sku' t = .error e →
          processTokens sku (l₁ ++ t :: l₂) = .error e) := by
  refine ⟨?_, by decide, ?_⟩
  · intro codes key s n hok hcon
    rw [parse_enum_u32, parse_u32, hok]
    show (if codes.contains n = true then Except.ok n
          else Except.error (ParseError.invalidValue key n)) =
        Except.error (ParseError.invalidValue key n)
    rw [hcon]
    simp
  · intro sku sku' l₁ l₂ t e h1 h2
    rw [processTokens_append l₁ (t :: l₂) sku, h1]
    show (match parse_sku_element sku' t with
          | .ok s => processTokens s l₂
          | .error e' => .error e') = .error e
    rw [h2]

theorem sku_strict_invalid_value_first_error_spot :
    parse_enum_u32 qualityCodes "quality" (chars "122") = .error (.invalidValue "quality" 122) ∧
    processTokens (SKU.new 1 5) ([] ++ chars "kt-5" :: [chars "u3"]) =
      .error (.invalidValue "killstreak tier" 5) :=
  ⟨sku_strict_invalid_value_first_error.1 qualityCodes "quality" (chars "122") 122
     (by decide) (by decide),
   sku_strict_invalid_value_first_error.2.2 (SKU.new 1 5) (SKU.new 1 5) [] [chars "u3"]
     (chars "kt-5") (.invalidValue "killstreak tier" 5) (by decide) (by decide)⟩

/-- C5: a token whose name part (after stripping the maximal trailing digit
run) matches no known attribute name is silently ignored by the dispatcher in
both decode modes, never an error; strict decode of `1;5;superspecial`
succeeds and the result formats back to `1;5`. -/
theorem sku_unknown_name_ignored :
    (∀ (sku : SKU) (e : List Char), (split_name_value e).1 ∉ knownNames →
        parse_sku_element sku e = .ok sku ∧ applyLossy sku e = sku) ∧
    SKU.try_from (chars "1;5;superspecial") = .ok (SKU.new 1 5) ∧
    (SKU.new 1 5).to_sku_string = chars "1;5" := by
  refine ⟨?_, by decide, by decide⟩
  intro sku e h
  have h1 := parse_sku_element_unknown sku e h
  refine ⟨h1, ?_⟩
  unfold applyLossy
  rw [h1]

theorem sku_unknown_name_ignored_spot :
    parse_sku_element (SKU.new 1 5) (chars "superspecial") = .ok (SKU.new 1 5) ∧
    applyLossy (SKU.new 1 5) (chars "superspecial") = SKU.new 1 5 :=
  sku_unknown_name_ignored.1 (SKU.new 1 5) (chars "superspecial") (by decide)

/-- C6: the trailing-digit scan never splits a character: the byte index the
source splits at (total byte length minus one byte per trailing digit) is
exactly the byte length of the name part, so it always falls on a character
boundary; and a token containing any non-ASCII character sets no field and
raises no error in either mode — in particular no spurious particle value —
since its name part cannot match any (all-ASCII) known name. -/
theorem sku_multibyte_scan_safe :
    (∀ e : List Char, byteLen (split_name_value e).1 + trailingDigitCount e = byteLen e) ∧
    (∀ (sku : SKU) (e : List Char) (c : Char), c ∈ e → 128 ≤ c.toNat →
        parse_sku_element sku e = .ok sku ∧ applyLossy sku e = sku) := by
  refine ⟨split_name_boundary, ?_⟩
  intro sku e c hc ha
  have h1 := parse_sku_element_nonascii sku e c hc ha
  refine ⟨h1, ?_⟩
  unfold applyLossy
  rw [h1]

theorem sku_multibyte_scan_safe_spot :
    parse_sku_element (SKU.new 1 5) ['u', Char.ofNat 127820, '1'] = .ok (SKU.new 1 5) ∧
    applyLossy (SKU.new 1 5) ['u', Char.ofNat 127820, '1'] = SKU.new 1 5 :=
  sku_multibyte_scan_safe.2 (SKU.new 1 5) ['u', Char.ofNat 127820, '1'] (Char.ofNat 127820)
    (by decide) (by decide)

/-- C7: a token whose value portion is empty after the trailing-digit scan is
exactly its own name part (first clause), so a token matching any of the
twelve recognized value-carrying attribute names with an empty value portion
is the bare name itself; for every one of those names the dispatcher fails
with an empty-input integer-parse error naming that attribute's field; and
strict decode of `1;5;u;pk1` fails with an integer-parse error naming
"particle". -/
theorem sku_empty_value_error :
    (∀ e : List Char, e = (split_name_value e).1 ++ (split_name_value e).2) ∧
    (∀ sku : SKU, parse_sku_element sku (chars "u") = .error (.parseInt "particle" .empty)) ∧
    (∀ sku : SKU, parse_sku_element sku (chars "w") = .error (.parseInt "wear" .empty)) ∧
    (∀ sku : SKU, parse_sku_element sku (chars "n") = .error (.parseInt "craft number" .empty)) ∧
    (∀ sku : SKU, parse_sku_element sku (chars "c") = .error (.parseInt "crate number" .empty)) ∧
    (∀ sku : SKU, parse_sku_element sku (chars "p") = .error (.parseInt "paint" .empty)) ∧
    (∀ sku : SKU, parse_sku_element sku (chars "pk") = .error (.parseInt "skin" .empty)) ∧
    (∀ sku : SKU,
      parse_sku_element sku (chars "kt-") = .error (.parseInt "killstreak tier" .empty)) ∧
    (∀ sku : SKU,
      parse_sku_element sku (chars "td-") = .error (.parseInt "target defindex" .empty)) ∧
    (∀ sku : SKU,
      parse_sku_element sku (chars "od-") = .error (.parseInt "output defindex" .empty)) ∧
    (∀ sku : SKU,
      parse_sku_element sku (chars "oq-") = .error (.parseInt "output quality" .empty)) ∧
    (∀ sku : SKU, parse_sku_element sku (chars "ks-") = .error (.parseInt "sheen" .empty)) ∧
    (∀ sku : SKU,
      parse_sku_element sku (chars "ke-") = .error (.parseInt "killstreaker" .empty)) ∧
    SKU.try_from (chars "1;5;u;pk1") = .error (.parseInt "particle" .empty) :=
  ⟨fun e => (split_name_value_recombine e).symm,
   fun _ => rfl, fun _ => rfl, fun _ => rfl, fun _ => rfl, fun _ => rfl, fun _ => rfl,
   fun _ => rfl, fun _ => rfl, fun _ => rfl, fun _ => rfl, fun _ => rfl, fun _ => rfl,
   by decide⟩

/-- C8 counterexample: a defindex token with a leading plus sign IS accepted
by strict decoding, contradicting the claim that it is not: `+1;11` strict
decodes successfully to defindex `1`, quality Strange. -/
theorem sku_plus_defindex_counterexample :
    SKU.try_from (chars "+1;11") = .ok (SKU.new 1 11) := by decide

/-- C8 amended: strict decoding accepts token 0 exactly when it is an
optional leading plus or minus sign followed by at least one ASCII decimal
digit with the value inside `i32` range (`i32TokenOk`); negative values are
accepted (`-1;11` succeeds with defindex `-1`), and a leading plus sign is
also accepted (`+1;11` succeeds with defindex `1`). -/
theorem sku_defindex_sign_amended :
    (∀ s : List Char, isOkB (parseI32Raw s) = i32TokenOk s) ∧
    SKU.try_from (chars "-1;11") = .ok (SKU.new (-1) 11) ∧
    SKU.try_from (chars "+1;11") = .ok (SKU.new 1 11) :=
  ⟨parseI32Raw_isOk, by decide, by decide⟩

/-- C9: on every input accepted by strict decoding, lossy decoding returns
exactly the same record. -/
theorem sku_strict_lossy_agree (s : List Char) (r : SKU) (h : SKU.try_from s = .ok r) :
    SKU.from_str s = r :=
  from_str_of_try_from_ok s r h

theorem sku_strict_lossy_agree_spot :
    SKU.from_str (chars "264;11;kt-3") = { SKU.new 264 11 with killstreak_tier := some 3 } :=
  sku_strict_lossy_agree (chars "264;11;kt-3")
    { SKU.new 264 11 with killstreak_tier := some 3 } (by decide)

/-- C10: every bare flag name followed by a non-empty run of ASCII digits is
dispatched as the bare flag: the digits are stripped and discarded, the flag
field is set (strange = true, craftable = false, australium = true,
festivized = true), and strict decoding succeeds on such a token —
`1;5;strange42` decodes with strange set. -/
theorem sku_flag_trailing_digits :
    (∀ (sku : SKU) (ds : List Char), ds ≠ [] → ds.all Char.isDigit = true →
        parse_sku_element sku (chars "strange" ++ ds) = .ok { sku with strange := true }) ∧
    (∀ (sku : SKU) (ds : List Char), ds ≠ [] → ds.all Char.isDigit = true →
        parse_sku_element sku (chars "uncraftable" ++ ds) =
          .ok { sku with craftable := false }) ∧
    (∀ (sku : SKU) (ds : List Char), ds ≠ [] → ds.all Char.isDigit = true →
        parse_sku_element sku (chars "australium" ++ ds) =
          .ok { sku with australium := true }) ∧
    (∀ (sku : SKU) (ds : List Char), ds ≠ [] → ds.all Char.isDigit = true →
        parse_sku_element sku (chars "festive" ++ ds) =
          .ok { sku with festivized := true }) ∧
    SKU.try_from (chars "1;5;strange42") = .ok { SKU.new 1 5 with strange := true } := by
  refine ⟨?_, ?_, ?_, ?_, by decide⟩
  · intro sku ds _ hds
    exact parse_sku_element_strange sku ds hds
  · intro sku ds _ hds
    exact parse_sku_element_uncraftable sku ds hds
  · intro sku ds _ hds
    exact parse_sku_element_australium sku ds hds
  · intro sku ds _ hds
    exact parse_sku_element_festive sku ds hds

theorem sku_flag_trailing_digits_spot :
    parse_sku_element (SKU.new 1 5) (chars "strange" ++ chars "42") =
      .ok { SKU.new 1 5 with strange := true } ∧
    parse_sku_element (SKU.new 1 5) (chars "uncraftable" ++ chars "7") =
      .ok { SKU.new 1 5 with craftable := false } ∧
    parse_sku_element (SKU.new 1 5) (chars "australium" ++ chars "3") =
      .ok { SKU.new 1 5 with australium := true } ∧
    parse_sku_element (SKU.new 1 5) (chars "festive" ++ chars "9") =
      .ok { SKU.new 1 5 with festivized := true } :=
  ⟨sku_flag_trailing_digits.1 (SKU.new 1 5) (chars "42") (by decide) (by decide),
   sku_flag_trailing_digits.2.1 (SKU.new 1 5) (chars "7") (by decide) (by decide),
   sku_flag_trailing_digits.2.2.1 (SKU.new 1 5) (chars "3") (by decide) (by decide),
   sku_flag_trailing_digits.2.2.2.1 (SKU.new 1 5) (chars "9") (by decide) (by decide)⟩
